import Mathlib

/-!
# The SMTP dialog driver of `src/qwwsmtpclient/qwwsmtpclient.cpp`

A shallow embedding of `QwwSmtpClientPrivate` and of the public operations of
`QwwSmtpClient`.  The private object is a record, every slot and method is a
function on that record, and every emitted signal and every call on the socket
is appended, in program order, to the field `trace`.

Conventions of the embedding:

* `QByteArray` is a list of bytes, `QString` is a Lean `String`;
  `QString::toUtf8` is `toUtf8`.
* The C++ integer literals `0220`, `0235`, `0250`, `0334` and `0421` in the
  `switch (status)` statements start with `0`, hence are octal literals: their
  values are 144, 157, 168, 220 and 273.  The labels `1250`, `2354`, ... are
  decimal.  The embedding writes each label with the value the compiler gives it.
* `QQueue::head()` on an empty queue is undefined; the reply loop returns `none`
  there.
* `SMTPCommand::extra` is never initialised by the enqueueing operations; the
  embedding starts it at 0.
* Signals are delivered to slots that do not re-enter the driver.
* A read delivers the UTF-8 encoding of a text; `_q_readFromSocket` takes that text, which
  is `QString(raw_response)`.  An index out of range in the construction of `responses`
  is undefined as well (`none`).
* `Common::Section` of `src/Common/Section.cpp` is embedded at the end of the definitions.
-/

namespace QwwSmtp

/-! ## Qt value types -/

abbrev QByteArray := List UInt8
abbrev QString := String

/-- UTF-8 encoding of a string (`QString::toUtf8`, and the bytes of a C string literal). -/
def toUtf8 (s : QString) : QByteArray := s.data.flatMap String.utf8EncodeChar

/-- The 64 characters of the RFC 4648 alphabet, as bytes. -/
def base64Alphabet : List UInt8 :=
  toUtf8 "ABCDEFGHIJKLMNOPQRSTUVWXYZabcdefghijklmnopqrstuvwxyz0123456789+/"

/-- The byte that encodes the six-bit value `n`. -/
def base64Digit (n : Nat) : UInt8 := base64Alphabet.getD (n % 64) 0

/-- The byte `=` used for padding. -/
def base64Pad : UInt8 := 61

/-- Qt library `QByteArray::toBase64()`: RFC 4648 with padding, no line wrapping. -/
def toBase64 : QByteArray → QByteArray
  | [] => []
  | [a] =>
      [base64Digit (a.toNat / 4), base64Digit (a.toNat % 4 * 16), base64Pad, base64Pad]
  | [a, b] =>
      [base64Digit (a.toNat / 4), base64Digit (a.toNat % 4 * 16 + b.toNat / 16),
       base64Digit (b.toNat % 16 * 4), base64Pad]
  | a :: b :: c :: rest =>
      base64Digit (a.toNat / 4) :: base64Digit (a.toNat % 4 * 16 + b.toNat / 16) ::
      base64Digit (b.toNat % 16 * 4 + c.toNat / 64) :: base64Digit (c.toNat % 64) ::
      toBase64 rest

/-- Decimal rendering of a number (`QByteArray::number`). -/
def number (n : Nat) : QByteArray := toUtf8 (String.mk (Nat.toDigits 10 n))

/-- The variant type, restricted to the kinds of value the driver stores in `SMTPCommand::data`. -/
inductive QVariant where
  | invalid
  | string (s : QString)
  | byteArray (b : QByteArray)
  | int (i : Nat)
  | uint (n : Nat)
  | bool (b : Bool)
  | list (l : List QVariant)

namespace QVariant

/-- `QVariant::toList()`: the list, or an empty list for a variant of another kind. -/
def toList : QVariant → List QVariant
  | list l => l
  | _ => []

/-- `QVariant::toInt()` on the kinds stored by the driver. -/
def toInt : QVariant → Nat
  | int i => i
  | uint n => n
  | _ => 0

/-- `QVariant::toUInt()` on the kinds stored by the driver. -/
def toUInt : QVariant → Nat
  | int i => i
  | uint n => n
  | _ => 0

/-- `QVariant::toBool()` on the kinds stored by the driver. -/
def toBool : QVariant → Bool
  | bool b => b
  | _ => false

/-- `QVariant::toString()` on the kinds stored by the driver. -/
def toString : QVariant → QString
  | string s => s
  | _ => ""

/-- `QVariant::toByteArray()` on the kinds stored by the driver. -/
def toByteArray : QVariant → QByteArray
  | byteArray b => b
  | string s => toUtf8 s
  | _ => []

end QVariant

/-- `QList::at(i)`; an index out of range (an assertion failure in Qt) yields an invalid variant. -/
def atIndex (l : List QVariant) (i : Nat) : QVariant := l.getD i QVariant.invalid

/-! ## Enumerations of `qwwsmtpclient.h` -/

/-- `QwwSmtpClient::State`. -/
inductive State where
  | Disconnected | Connecting | Connected | TLSRequested | Authenticating | Sending
  | Disconnecting
  deriving DecidableEq

/-- `QwwSmtpClient::Option` (renamed, `Option` being taken): the enumerators take the
consecutive values 0, 1, ..., 7. -/
inductive SmtpOption where
  | NoOptions | StartTlsOption | AuthOption | SizeOption | EnhancedStatusCodesOption
  | PipeliningOption | BurlOption | EightBitMimeOption
  deriving DecidableEq

/-- The integer value of an enumerator of `QwwSmtpClient::Option`. -/
def SmtpOption.value : SmtpOption → Nat
  | .NoOptions => 0
  | .StartTlsOption => 1
  | .AuthOption => 2
  | .SizeOption => 3
  | .EnhancedStatusCodesOption => 4
  | .PipeliningOption => 5
  | .BurlOption => 6
  | .EightBitMimeOption => 7

/-- `QwwSmtpClient::AuthMode`: `AuthNone = 0, AuthAny = 1, AuthPlain = 2, AuthLogin = 4`. -/
inductive AuthMode where
  | AuthNone | AuthAny | AuthPlain | AuthLogin
  deriving DecidableEq

/-- The integer value of an enumerator of `QwwSmtpClient::AuthMode`. -/
def AuthMode.value : AuthMode → Nat
  | .AuthNone => 0
  | .AuthAny => 1
  | .AuthPlain => 2
  | .AuthLogin => 4

/-- `QFlags::testFlag`: `(i & f) == f && (f != 0 || i == f)`. -/
def testFlag (i f : Nat) : Bool := (i &&& f == f) && (f != 0 || i == f)

/-- `SMTPCommand::Type`. -/
inductive CommandType where
  | Connect | Disconnect | StartTLS | Authenticate | Mail | MailBurl | RawCommand
  deriving DecidableEq

/-- `struct SMTPCommand`. -/
structure SMTPCommand where
  id : Nat
  type : CommandType
  data : QVariant
  extra : Nat

/-! ## Observable effects -/

/-- The signals of `QwwSmtpClient` and the calls the driver makes on its socket. -/
inductive Effect where
  | done (ok : Bool)
  | connected
  | disconnected
  | stateChanged (s : State)
  | commandFinished (id : Nat) (error : Bool)
  | commandStarted (id : Nat)
  | tlsStarted
  | authenticated
  | rawCommandReply (code : Nat) (details : QString)
  | socketError (err : Nat) (message : QString)
  | logReceived (data : QByteArray)
  | logSent (data : QByteArray)
  | write (data : QByteArray)
  | startClientEncryption
  | connectToHost (hostName : QString) (port : Nat)
  | connectToHostEncrypted (hostName : QString) (port : Nat)
  | waitForBytesWritten (msecs : Nat)
  | disconnectFromHost
  | qWarning (msg : QString)
  deriving DecidableEq

/-- The part of the socket the driver reads: `isEncrypted()`, and whether the socket's
`encrypted()` signal has been connected to `_q_encrypted` (done by `startTls`). -/
structure QSslSocket where
  isEncrypted : Bool
  encryptedSlot : Bool
  deriving DecidableEq

/-- `class QwwSmtpClientPrivate`, with the trace of effects produced so far. -/
structure QwwSmtpClientPrivate where
  socket : QSslSocket
  state : State
  lastId : Nat
  inProgress : Bool
  localName : QString
  localNameEncrypted : QString
  errorString : QString
  options : Nat
  authModes : Nat
  commandqueue : List SMTPCommand
  trace : List Effect

/-! ## Helpers for the Qt containers -/

/-- Appends an effect to the trace (an `emit`, or a call on the socket). -/
def emit (e : Effect) (d : QwwSmtpClientPrivate) : QwwSmtpClientPrivate :=
  { d with trace := d.trace ++ [e] }

/-- Assignment `cmd.extra = n` through the reference `cmd = commandqueue.head()`. -/
def setHeadExtra (n : Nat) (d : QwwSmtpClientPrivate) : QwwSmtpClientPrivate :=
  match d.commandqueue with
  | [] => d
  | cmd :: rest => { d with commandqueue := { cmd with extra := n } :: rest }

/-- Assignment `cmd.data = v` through the reference `cmd = commandqueue.head()`. -/
def setHeadData (v : QVariant) (d : QwwSmtpClientPrivate) : QwwSmtpClientPrivate :=
  match d.commandqueue with
  | [] => d
  | cmd :: rest => { d with commandqueue := { cmd with data := v } :: rest }

/-- `QString::isEmpty`. -/
def isEmpty (s : QString) : Bool := s.data.isEmpty

/-- `QString::toLower`, on the ASCII letters (the keywords compared against are ASCII). -/
def toLower (s : QString) : QString := String.mk (s.data.map Char.toLower)

/-- Splitting at every occurrence of `sep`, empty parts kept. -/
def splitChars (sep : Char) : List Char → List (List Char)
  | [] => [[]]
  | c :: cs =>
      if c = sep then [] :: splitChars sep cs
      else
        match splitChars sep cs with
        | [] => [[c]]
        | p :: ps => (c :: p) :: ps

/-- `QString::split(sep)` with the default `KeepEmptyParts`. -/
def split (s : QString) (sep : Char) : List QString := (splitChars sep s.data).map String.mk

/-- `QStringList::join(QLatin1Char('\n'))`. -/
def joinLines (texts : List QString) : QString := String.intercalate "\n" texts

/-- `QString::endsWith`. -/
def endsWith (s suffix : QString) : Bool := suffix.data.isSuffixOf s.data

/-! ## The private methods -/

/-- `QwwSmtpClientPrivate::setState`. -/
def setState (s : State) (d : QwwSmtpClientPrivate) : QwwSmtpClientPrivate :=
  let old := d.state
  let d := emit (.stateChanged s) { d with state := s }
  let d := if old = .Connecting ∧ s = .Connected then emit .connected d else d
  if s = .Disconnected then emit .disconnected d else d

/-- The static map `text2option` of `parseOption`; a missing key yields the default value 0. -/
def text2option (key : QString) : SmtpOption :=
  if key = "pipelining" then .PipeliningOption
  else if key = "starttls" then .StartTlsOption
  else if key = "8bitmime" then .EightBitMimeOption
  else if key = "auth" then .AuthOption
  else .NoOptions

/-- The static map `text2authmode` of `parseOption`; a missing key yields the default value 0. -/
def text2authmode (key : QString) : AuthMode :=
  if key = "plain" then .AuthPlain
  else if key = "login" then .AuthLogin
  else .AuthNone

/-- The body of the outer `foreach` of `parseOption`, for one reply line. -/
def parseOptionLine (d : QwwSmtpClientPrivate) (text : QString) : QwwSmtpClientPrivate :=
  match split (toLower text) ' ' with
  | [] => d
  | first :: textparts =>
      let option := text2option first
      let d := { d with options := d.options ||| option.value }
      if option = .AuthOption then
        textparts.foldl
          (fun d s => { d with authModes := d.authModes ||| (text2authmode s).value }) d
      else d

/-- `QwwSmtpClientPrivate::parseOption`. -/
def parseOption (texts : List QString) (d : QwwSmtpClientPrivate) : QwwSmtpClientPrivate :=
  texts.foldl parseOptionLine d

/-- `QwwSmtpClientPrivate::sendEhlo`. -/
def sendEhlo (d : QwwSmtpClientPrivate) : QwwSmtpClientPrivate :=
  let domain :=
    if d.socket.isEncrypted && !isEmpty d.localNameEncrypted then d.localNameEncrypted
    else d.localName
  let buf := toUtf8 ("EHLO " ++ domain ++ "\r\n")
  setHeadExtra 1 (emit (.write buf) (emit (.logSent buf) d))

/-- `QwwSmtpClientPrivate::sendHelo`. -/
def sendHelo (d : QwwSmtpClientPrivate) : QwwSmtpClientPrivate :=
  let domain :=
    if d.socket.isEncrypted && isEmpty d.localNameEncrypted then d.localNameEncrypted
    else d.localName
  let buf := toUtf8 ("HELO " ++ domain ++ "\r\n")
  setHeadExtra 1 (emit (.write buf) (emit (.logSent buf) d))

/-- `QwwSmtpClientPrivate::sendQuit`. -/
def sendQuit (d : QwwSmtpClientPrivate) : QwwSmtpClientPrivate :=
  let buf := toUtf8 "QUIT\r\n"
  let d := emit (.write buf) (emit (.logSent buf) d)
  let d := emit .disconnectFromHost (emit (.waitForBytesWritten 1000) d)
  setState .Disconnecting d

/-- `QwwSmtpClientPrivate::sendRcpt`.  `QList::first()` of an empty recipient list (an
assertion failure in Qt) yields an invalid variant, whose byte array is empty. -/
def sendRcpt (d : QwwSmtpClientPrivate) : QwwSmtpClientPrivate :=
  match d.commandqueue with
  | [] => d
  | cmd :: _ =>
      let vlist := cmd.data.toList
      let rcptlist := (atIndex vlist 1).toList
      let buf := toUtf8 "RCPT TO:<" ++ (rcptlist.headD .invalid).toByteArray ++ toUtf8 ">\r\n"
      let d := emit (.write buf) (emit (.logSent buf) d)
      let rcptlist := rcptlist.tail
      let vlist := vlist.set 1 (.list rcptlist)
      let d := setHeadData (.list vlist) d
      if rcptlist.isEmpty then setHeadExtra 1 d else d

/-- `QwwSmtpClientPrivate::sendAuthPlain`. -/
def sendAuthPlain (username password : QString) (d : QwwSmtpClientPrivate) :
    QwwSmtpClientPrivate :=
  let ba : QByteArray := [0] ++ toUtf8 username ++ [0] ++ toUtf8 password
  let encoded := toBase64 ba
  let d := emit (.logSent (toUtf8 "*** [sending authentication data: username '" ++
    toUtf8 username ++ toUtf8 "']")) d
  emit (.write (toUtf8 "\r\n")) (emit (.write encoded) d)

/-- `QwwSmtpClientPrivate::sendAuthLogin`. -/
def sendAuthLogin (username password : QString) (stage : Nat) (d : QwwSmtpClientPrivate) :
    QwwSmtpClientPrivate :=
  if stage = 1 then
    let buf := toBase64 (toUtf8 username) ++ toUtf8 "\r\n"
    emit (.write buf) (emit (.logSent buf) d)
  else if stage = 2 then
    let d := emit (.logSent (toUtf8 "*** [AUTH LOGIN password]")) d
    emit (.write (toUtf8 "\r\n")) (emit (.write (toBase64 (toUtf8 password))) d)
  else d

/-- The `switch (cmd.type)` of `processNextCommand`: issues the first command of the
operation now at the head of the queue. -/
def dispatch (cmd : SMTPCommand) (d : QwwSmtpClientPrivate) : QwwSmtpClientPrivate :=
  match cmd.type with
  | .Connect =>
      let hostName := (atIndex cmd.data.toList 0).toString
      let port := (atIndex cmd.data.toList 1).toUInt
      let ssl := (atIndex cmd.data.toList 2).toBool
      let d :=
        if ssl then
          emit (.connectToHostEncrypted hostName port)
            (emit (.logSent (toUtf8 "*** connectToHostEncrypted: " ++ toUtf8 hostName ++
              toUtf8 ":" ++ number port)) d)
        else
          emit (.connectToHost hostName port)
            (emit (.logSent (toUtf8 "*** connectToHost: " ++ toUtf8 hostName ++
              toUtf8 ":" ++ number port)) d)
      setState .Connecting d
  | .Disconnect => sendQuit d
  | .StartTLS =>
      let data := toUtf8 "STARTTLS\r\n"
      setState .TLSRequested (emit (.write data) (emit (.logSent data) d))
  | .Authenticate =>
      let requested := (atIndex cmd.data.toList 0).toInt
      let resolved : Nat × Bool :=
        if requested = AuthMode.AuthAny.value then
          if testFlag d.authModes AuthMode.AuthPlain.value then (AuthMode.AuthPlain.value, true)
          else if testFlag d.authModes AuthMode.AuthLogin.value then
            (AuthMode.AuthLogin.value, true)
          else (requested, false)
        else (requested, false)
      let authmode := resolved.1
      let d :=
        if resolved.2 then setHeadData (.list (cmd.data.toList.set 0 (.int authmode))) d
        else d
      if authmode = AuthMode.AuthPlain.value then
        let buf := toUtf8 "AUTH PLAIN\r\n"
        setState .Authenticating (emit (.write buf) (emit (.logSent buf) d))
      else if authmode = AuthMode.AuthLogin.value then
        let buf := toUtf8 "AUTH LOGIN\r\n"
        setState .Authenticating (emit (.write buf) (emit (.logSent buf) d))
      else
        emit (.done false)
          { d with errorString := "Unsupported or unknown authentication scheme" }
  | .Mail | .MailBurl =>
      let d := setState .Sending d
      let buf := toUtf8 "MAIL FROM:<" ++ (atIndex cmd.data.toList 0).toByteArray ++
        toUtf8 ">\r\n"
      emit (.write buf) (emit (.logSent buf) d)
  | .RawCommand =>
      let cont := cmd.data.toString
      let cont := if !endsWith cont "\r\n" then cont ++ "\r\n" else cont
      let d := setState .Sending d
      let buf := toUtf8 cont
      emit (.write buf) (emit (.logSent buf) d)

/-- The first statement of `processNextCommand(ok)`: when an operation is in progress and
the queue is not empty, `commandFinished(head.id, !ok)` is emitted and the head is dequeued. -/
def finishCommand (ok : Bool) (d : QwwSmtpClientPrivate) : QwwSmtpClientPrivate :=
  match d.inProgress, d.commandqueue with
  | true, cmd :: rest => { emit (.commandFinished cmd.id (!ok)) d with commandqueue := rest }
  | _, _ => d

/-- The rest of `processNextCommand`: with an empty queue the session is over
(`inProgress = false`, `done(false)`), otherwise the head is dispatched, `inProgress` is set
and `commandStarted(head.id)` is emitted. -/
def startCommand (d : QwwSmtpClientPrivate) : QwwSmtpClientPrivate :=
  match d.commandqueue with
  | [] => emit (.done false) { d with inProgress := false }
  | cmd :: _ =>
      let d := dispatch cmd d
      emit (.commandStarted cmd.id) { d with inProgress := true }

/-- `QwwSmtpClientPrivate::processNextCommand`. -/
def processNextCommand (ok : Bool) (d : QwwSmtpClientPrivate) : QwwSmtpClientPrivate :=
  startCommand (finishCommand ok d)

/-! ## The reply loop of `_q_readFromSocket` -/

/-- The `case SMTPCommand::Connect` of the reply loop. -/
def replyConnect (texts : List QString) (status : Nat) (d : QwwSmtpClientPrivate) :
    QwwSmtpClientPrivate :=
  if status = 0o220 then sendEhlo d
  else if status = 1250 then
    -- falls through into `case 2250`
    processNextCommand true
      (setState .Connected { parseOption texts d with errorString := "" })
  else if status = 2250 then
    processNextCommand true (setState .Connected { d with errorString := "" })
  else if status = 1421 ∨ status = 1501 ∨ status = 1502 ∨ status = 1554 then
    setHeadExtra 2 (sendHelo { d with errorString := joinLines texts })
  else d

/-- The `case SMTPCommand::StartTLS` of the reply loop. -/
def replyStartTLS (raw_response : QByteArray) (texts : List QString) (cmd : SMTPCommand)
    (status : Nat) (d : QwwSmtpClientPrivate) : QwwSmtpClientPrivate :=
  if status = 0o220 then
    emit .startClientEncryption (emit (.logSent (toUtf8 "*** startClientEncryption")) d)
  else if status = 1250 then
    let d := parseOption texts (setState .Connected d)
    processNextCommand true (emit .tlsStarted { d with errorString := "" })
  else
    let d := emit (.logReceived (toUtf8 "*** TLS failed at stage " ++ number cmd.extra ++
      toUtf8 ": " ++ raw_response)) d
    emit (.done false) { d with errorString := "TLS failed" }

/-- The `case SMTPCommand::Authenticate` of the reply loop.  In the `default` branch of the
inner switch of `case 0334`, `processNextCommand` removes the operation that `cmd` refers to
when an operation is in progress, and the later `cmd.extra += 1` then reaches no operation
of the queue. -/
def replyAuthenticate (texts : List QString) (cmd : SMTPCommand) (status : Nat)
    (d : QwwSmtpClientPrivate) : QwwSmtpClientPrivate :=
  let authmode := (atIndex cmd.data.toList 0).toInt
  let username := (atIndex cmd.data.toList 1).toString
  let password := (atIndex cmd.data.toList 2).toString
  if status = 0o235 ∨ status = 1235 ∨ status = 2235 then
    processNextCommand true
      (setState .Connected (emit .authenticated { d with errorString := "" }))
  else if status = 0o334 then
    let d := { d with errorString := "" }
    if authmode = AuthMode.AuthPlain.value then
      setHeadExtra (cmd.extra + 1) (sendAuthPlain username password d)
    else if authmode = AuthMode.AuthLogin.value then
      setHeadExtra (cmd.extra + 1) (sendAuthLogin username password (cmd.extra + 1) d)
    else
      let next := processNextCommand true
        (setState .Connected (emit (.qWarning "I shouldn't be here") d))
      if d.inProgress then next else setHeadExtra (cmd.extra + 1) next
  else if status = 1334 then
    let d := { d with errorString := "" }
    if authmode = AuthMode.AuthPlain.value then
      processNextCommand true (setState .Connected d)
    else if authmode = AuthMode.AuthLogin.value then
      sendAuthLogin username password (cmd.extra + 1) d
    else
      processNextCommand true
        (setState .Connected (emit (.qWarning "I shouldn't be here") d))
  else if status = 2334 then
    processNextCommand true (setState .Connected { d with errorString := joinLines texts })
  else
    emit (.done false) (setState .Connected { d with errorString := joinLines texts })

/-- The `case SMTPCommand::Mail: case SMTPCommand::MailBurl:` of the reply loop. -/
def replyMail (texts : List QString) (cmd : SMTPCommand) (status : Nat)
    (d : QwwSmtpClientPrivate) : QwwSmtpClientPrivate :=
  if status = 0o250 then sendRcpt { d with errorString := "" }
  else if status = 0o421 then
    processNextCommand false (setState .Connected { d with errorString := joinLines texts })
  else if status = 1250 then
    let d := { d with errorString := "" }
    let data :=
      if cmd.type = .MailBurl then
        toUtf8 "BURL " ++ (atIndex cmd.data.toList 2).toByteArray ++ toUtf8 " LAST\r\n"
      else toUtf8 "DATA\r\n"
    setHeadExtra 2 (emit (.write data) (emit (.logSent data) d))
  else if status = 2250 ∨ status = 3250 then
    processNextCommand true (setState .Connected { d with errorString := "" })
  else if status = 2354 ∧ cmd.type = .Mail then
    let d := { d with errorString := "" }
    let toBeWritten := (atIndex cmd.data.toList 2).toByteArray ++ toUtf8 "\r\n.\r\n"
    setHeadExtra 3 (emit (.write toBeWritten) (emit (.logSent toBeWritten) d))
  else
    -- `default`, also reached from `case 2354` when the operation is not `Mail`
    let d := setState .Connected { d with errorString := joinLines texts }
    processNextCommand true (emit (.done false) d)

/-- One iteration of the `for` loop over `responses` in `_q_readFromSocket`: the reply group
`response = (code, lines)` is handled against the operation at the head of the queue. -/
def processResponse (raw_response : QByteArray) (d : QwwSmtpClientPrivate)
    (response : Nat × List QString) : Option QwwSmtpClientPrivate :=
  match d.commandqueue with
  | [] => none
  | cmd :: _ =>
      let status := response.1 + cmd.extra * 1000
      let texts := response.2
      match cmd.type with
      | .Connect => some (replyConnect texts status d)
      | .StartTLS => some (replyStartTLS raw_response texts cmd status d)
      | .Authenticate => some (replyAuthenticate texts cmd status d)
      | .Mail | .MailBurl => some (replyMail texts cmd status d)
      | .Disconnect | .RawCommand => some d

/-- The `for` loop over `responses` in `_q_readFromSocket`. -/
def processResponses (raw_response : QByteArray) :
    List (Nat × List QString) → QwwSmtpClientPrivate → Option QwwSmtpClientPrivate
  | [], d => some d
  | response :: rest, d =>
      match processResponse raw_response d response with
      | none => none
      | some d => processResponses raw_response rest d

/-- A sequence of reply groups handled one after the other, each with the bytes of the read
that delivered it (several groups of one read carry the same bytes). -/
def handleReplies :
    List (QByteArray × Nat × List QString) → QwwSmtpClientPrivate → Option QwwSmtpClientPrivate
  | [], d => some d
  | (raw_response, response) :: rest, d =>
      match processResponse raw_response d response with
      | none => none
      | some d => handleReplies rest d

/-! ## The framing part of `_q_readFromSocket`

The regular expression `(*ANYCRLF)^(\d+)( |-)(.*)$` is applied in multi-line mode: the text
is cut into lines at CR, LF and CRLF, `.` matches neither CR nor LF, and a line gives a
match exactly when it starts with one or more ASCII digits followed by a space or a hyphen.
-/

/-- The lines of a text, cut at CR, LF and CRLF; `afterCR` tells that the previous character
was a CR, so that an LF right after it belongs to the same line break. -/
def splitLinesAux (afterCR : Bool) : List Char → List (List Char)
  | [] => [[]]
  | c :: cs =>
      if c = '\r' then [] :: splitLinesAux true cs
      else if c = '\n' then
        if afterCR then splitLinesAux false cs else [] :: splitLinesAux false cs
      else
        match splitLinesAux false cs with
        | [] => [[c]]
        | l :: ls => (c :: l) :: ls

/-- The lines of a text under the `ANYCRLF` convention. -/
def splitLines (text : List Char) : List (List Char) := splitLinesAux false text

/-- `QString::toInt()` of a string of ASCII digits: the decimal value, or 0 when it does not
fit a 32-bit `int`. -/
def toInt (digits : List Char) : Nat :=
  let value := digits.foldl (fun n c => 10 * n + (c.toNat - 48)) 0
  if value < 2 ^ 31 then value else 0

/-- `QChar::isSpace`. -/
def isSpace (c : Char) : Bool :=
  let n := c.toNat
  n = 0x20 || (0x09 ≤ n && n ≤ 0x0d) || n = 0x85 || n = 0xa0 || n = 0x1680 ||
    (0x2000 ≤ n && n ≤ 0x200a) || n = 0x2028 || n = 0x2029 || n = 0x202f || n = 0x205f ||
    n = 0x3000

/-- `QString::trimmed()`. -/
def trimmed (s : QString) : QString :=
  String.mk ((s.data.dropWhile isSpace).reverse.dropWhile isSpace).reverse

/-- One match of the regular expression: `captured(1).toInt()`, the character of
`captured(2)` and `captured(3)`. -/
structure LineMatch where
  code : Nat
  sep : Char
  text : QString
  deriving DecidableEq

/-- The match of the regular expression on one line, if the line matches. -/
def matchLine (line : List Char) : Option LineMatch :=
  let digits := line.takeWhile Char.isDigit
  match line.dropWhile Char.isDigit with
  | [] => none
  | sep :: rest =>
      if digits ≠ [] ∧ (sep = ' ' ∨ sep = '-') then
        some { code := toInt digits, sep := sep, text := String.mk rest }
      else none

/-- The matches that `rx.globalMatch(QString(raw_response))` iterates over, in order. -/
def lineMatches (text : QString) : List LineMatch :=
  (splitLines text.data).filterMap matchLine

/-- The assignment `responses[k].first = code`; `none` when `k` is out of range. -/
def setFirst (responses : List (Nat × List QString)) (k : Nat) (code : Nat) :
    Option (List (Nat × List QString)) :=
  match responses.get? k with
  | none => none
  | some entry => some (responses.set k (code, entry.2))

/-- The statement `responses[k].second << text`; `none` when `k` is out of range. -/
def appendSecond (responses : List (Nat × List QString)) (k : Nat) (text : QString) :
    Option (List (Nat × List QString)) :=
  match responses.get? k with
  | none => none
  | some entry => some (responses.set k (entry.1, entry.2 ++ [text]))

/-- The `do ... while (i.hasNext())` loop over the remaining matches, from the list
`responses`, the index `k` and the flag `new_status`; `none` when the list is indexed out of
range. -/
def frameLoop : List LineMatch → List (Nat × List QString) → Nat → Bool →
    Option (List (Nat × List QString))
  | [], responses, _, _ => some responses
  | m :: rest, responses, k, new_status =>
      let k := if new_status then k + 1 else k
      match (if new_status then setFirst responses k m.code else some responses) with
      | none => none
      | some responses =>
          match appendSecond responses k (trimmed m.text) with
          | none => none
          | some responses => frameLoop rest responses k (m.sep = ' ')

/-- The construction of `responses` from the matches.  The list starts with the single entry
`(code of the first match, [])` and is never extended.  Without any match the loop body runs
on an invalid match and takes `captured(2).at(0)` of an empty string, which is out of range:
`none` as well. -/
def frameMatches : List LineMatch → Option (List (Nat × List QString))
  | [] => none
  | m :: rest => frameLoop (m :: rest) [(m.code, [])] 0 false

/-- The list `responses` built from the text of one read. -/
def frame (text : QString) : Option (List (Nat × List QString)) :=
  frameMatches (lineMatches text)

/-- `QwwSmtpClientPrivate::_q_readFromSocket`, for a read whose bytes are the UTF-8 encoding
of `text` (`text` is `QString(raw_response)`). -/
def _q_readFromSocket (text : QString) (d : QwwSmtpClientPrivate) :
    Option QwwSmtpClientPrivate :=
  let raw_response := toUtf8 text
  let d := emit (.logReceived raw_response) d
  match frame text with
  | none => none
  | some responses => processResponses raw_response responses d

/-! ## The slots connected to the socket -/

/-- `QwwSmtpClientPrivate::onConnected`. -/
def onConnected (d : QwwSmtpClientPrivate) : QwwSmtpClientPrivate :=
  emit .connected
    (emit (.stateChanged .Connected)
      { d with options := SmtpOption.NoOptions.value, authModes := AuthMode.AuthNone.value })

/-- `QwwSmtpClientPrivate::onDisconnected`. -/
def onDisconnected (d : QwwSmtpClientPrivate) : QwwSmtpClientPrivate :=
  let d := setState .Disconnected d
  match d.commandqueue with
  | [] => emit (.done true) { d with inProgress := false }
  | cmd :: _ =>
      if cmd.type = .Disconnect then emit (.done true) { d with inProgress := false }
      else
        let d := emit (.commandFinished cmd.id true) d
        emit (.done false) { d with commandqueue := [], inProgress := false }

/-- `QwwSmtpClientPrivate::onError`; `message` is the socket's `errorString()`. -/
def onError (e : Nat) (message : QString) (d : QwwSmtpClientPrivate) : QwwSmtpClientPrivate :=
  onDisconnected (emit (.socketError e message) d)

/-- `QwwSmtpClientPrivate::_q_encrypted`, run when the socket reports that the TLS handshake
is complete (from then on `isEncrypted()` holds).  `sendEhlo` takes `commandqueue.head()`,
undefined on an empty queue. -/
def _q_encrypted (d : QwwSmtpClientPrivate) : Option QwwSmtpClientPrivate :=
  match d.commandqueue with
  | [] => none
  | _ :: _ => some (sendEhlo { d with options := SmtpOption.NoOptions.value })

/-- The socket's `encrypted()` signal: the socket is encrypted from now on, and the slot
`_q_encrypted` runs if `startTls` has connected it. -/
def socketEncrypted (d : QwwSmtpClientPrivate) : Option QwwSmtpClientPrivate :=
  let d := { d with socket := { d.socket with isEncrypted := true } }
  if d.socket.encryptedSlot then _q_encrypted d else some d

/-! ## The public operations of `QwwSmtpClient` -/

/-- The state set up by the constructor `QwwSmtpClient::QwwSmtpClient`. -/
def initial : QwwSmtpClientPrivate where
  socket := { isEncrypted := false, encryptedSlot := false }
  state := .Disconnected
  lastId := 0
  inProgress := false
  localName := "localhost"
  localNameEncrypted := ""
  errorString := ""
  options := 0
  authModes := 0
  commandqueue := []
  trace := []

/-- The tail shared by every enqueueing operation: `cmd.id = ++d->lastId`, enqueue, and
`processNextCommand()` unless an operation is in progress.  Returns the id as well. -/
def enqueue (type : CommandType) (data : QVariant) (d : QwwSmtpClientPrivate) :
    Nat × QwwSmtpClientPrivate :=
  let id := d.lastId + 1
  let d := { d with lastId := id,
                    commandqueue := d.commandqueue ++ [{ id := id, type := type, data := data,
                                                         extra := 0 }] }
  (id, if !d.inProgress then processNextCommand true d else d)

/-- `QwwSmtpClient::connectToHost`. -/
def connectToHost (hostName : QString) (port : Nat) (d : QwwSmtpClientPrivate) :
    Nat × QwwSmtpClientPrivate :=
  enqueue .Connect (.list [.string hostName, .uint port, .bool false]) d

/-- `QwwSmtpClient::connectToHostEncrypted`. -/
def connectToHostEncrypted (hostName : QString) (port : Nat) (d : QwwSmtpClientPrivate) :
    Nat × QwwSmtpClientPrivate :=
  enqueue .Connect (.list [.string hostName, .uint port, .bool true]) d

/-- `QwwSmtpClient::disconnectFromHost`. -/
def disconnectFromHost (d : QwwSmtpClientPrivate) : Nat × QwwSmtpClientPrivate :=
  enqueue .Disconnect .invalid d

/-- `QwwSmtpClient::startTls`. -/
def startTls (d : QwwSmtpClientPrivate) : Nat × QwwSmtpClientPrivate :=
  enqueue .StartTLS .invalid { d with socket := { d.socket with encryptedSlot := true } }

/-- `QwwSmtpClient::setLocalName`. -/
def setLocalName (ln : QString) (d : QwwSmtpClientPrivate) : QwwSmtpClientPrivate :=
  { d with localName := ln }

/-- `QwwSmtpClient::setLocalNameEncrypted`. -/
def setLocalNameEncrypted (ln : QString) (d : QwwSmtpClientPrivate) : QwwSmtpClientPrivate :=
  { d with localNameEncrypted := ln }

/-- `QwwSmtpClient::authenticate`. -/
def authenticate (user password : QString) (mode : AuthMode) (d : QwwSmtpClientPrivate) :
    Nat × QwwSmtpClientPrivate :=
  enqueue .Authenticate (.list [.int mode.value, .string user, .string password]) d

/-- `QwwSmtpClient::sendMail`. -/
def sendMail (sender : QByteArray) (rcpts : List QByteArray) (content : QByteArray)
    (d : QwwSmtpClientPrivate) : Nat × QwwSmtpClientPrivate :=
  enqueue .Mail (.list [.byteArray sender, .list (rcpts.map .byteArray), .byteArray content]) d

/-- `QwwSmtpClient::sendMailBurl`. -/
def sendMailBurl (sender : QByteArray) (rcpts : List QByteArray) (url : QByteArray)
    (d : QwwSmtpClientPrivate) : Nat × QwwSmtpClientPrivate :=
  enqueue .MailBurl (.list [.byteArray sender, .list (rcpts.map .byteArray), .byteArray url]) d

/-- `QwwSmtpClient::rawCommand`. -/
def rawCommand (raw : QString) (d : QwwSmtpClientPrivate) : Nat × QwwSmtpClientPrivate :=
  enqueue .RawCommand (.string raw) d

/-- `QwwSmtpClient::supportedAuthModes`. -/
def supportedAuthModes (d : QwwSmtpClientPrivate) : Nat := d.authModes

/-- `QwwSmtpClient::options`. -/
def options (d : QwwSmtpClientPrivate) : Nat := d.options

/-- `QwwSmtpClient::errorString`. -/
def errorString (d : QwwSmtpClientPrivate) : QString := d.errorString

/-! ## A run of the driver -/

/-- What reaches the driver from outside: the public operations called by the application and
the signals of the socket. -/
inductive Input where
  | connectToHost (hostName : QString) (port : Nat)
  | connectToHostEncrypted (hostName : QString) (port : Nat)
  | disconnectFromHost
  | startTls
  | setLocalName (ln : QString)
  | setLocalNameEncrypted (ln : QString)
  | authenticate (user password : QString) (mode : AuthMode)
  | sendMail (sender : QByteArray) (rcpts : List QByteArray) (content : QByteArray)
  | sendMailBurl (sender : QByteArray) (rcpts : List QByteArray) (url : QByteArray)
  | rawCommand (raw : QString)
  | socketConnected
  | socketDisconnected
  | socketError (err : Nat) (message : QString)
  | socketEncrypted
  | readyRead (text : QString)

/-- The driver's reaction to one input; `none` when the source runs into undefined
behaviour. -/
def step (d : QwwSmtpClientPrivate) : Input → Option QwwSmtpClientPrivate
  | .connectToHost hostName port => some (connectToHost hostName port d).2
  | .connectToHostEncrypted hostName port => some (connectToHostEncrypted hostName port d).2
  | .disconnectFromHost => some (disconnectFromHost d).2
  | .startTls => some (startTls d).2
  | .setLocalName ln => some (setLocalName ln d)
  | .setLocalNameEncrypted ln => some (setLocalNameEncrypted ln d)
  | .authenticate user password mode => some (authenticate user password mode d).2
  | .sendMail sender rcpts content => some (sendMail sender rcpts content d).2
  | .sendMailBurl sender rcpts url => some (sendMailBurl sender rcpts url d).2
  | .rawCommand raw => some (rawCommand raw d).2
  | .socketConnected => some (onConnected d)
  | .socketDisconnected => some (onDisconnected d)
  | .socketError err message => some (onError err message d)
  | .socketEncrypted => socketEncrypted d
  | .readyRead text => _q_readFromSocket text d

/-- A run: the inputs handled one after the other, starting from `d`. -/
def run : List Input → QwwSmtpClientPrivate → Option QwwSmtpClientPrivate
  | [], d => some d
  | i :: rest, d =>
      match step d i with
      | none => none
      | some d => run rest d

/-! ## `Common::Section` of `src/Common/Section.cpp` -/

/-- A value of type `qint64`: the integers wrap around modulo `2 ^ 64` into the range from
`-2 ^ 63` to `2 ^ 63 - 1`. -/
def qint64 (x : Int) : Int := (x + 2 ^ 63) % 2 ^ 64 - 2 ^ 63

/-- `class Common::Section` (the member `end` is named `end_` here). -/
structure Section where
  begin : Int
  end_ : Int
  span : Int
  deriving DecidableEq

/-- The constructor `Common::Section::Section(qint64 begin_pos, qint64 end_pos)`. -/
def Section.new (begin_pos end_pos : Int) : Section :=
  { begin := begin_pos, end_ := end_pos, span := qint64 (begin_pos - end_pos) }

/-! ## Reading a trace -/

/-- The bytes handed to `socket->write`, in order, one entry per call. -/
def writes : List Effect → List QByteArray
  | [] => []
  | .write data :: rest => data :: writes rest
  | _ :: rest => writes rest

/-- The byte stream sent to the server: the written chunks concatenated. -/
def wire (t : List Effect) : QByteArray := (writes t).flatten

/-- The payloads of the `logSent` signals of a trace, in order. -/
def sentLog : List Effect → List QByteArray
  | [] => []
  | .logSent data :: rest => data :: sentLog rest
  | _ :: rest => sentLog rest

/-- Whether an effect is a call of `socket->write`. -/
def isWrite : Effect → Bool
  | .write _ => true
  | _ => false

/-- An operation with the password of an Authenticate operation (its third parameter)
blanked; other operations are left as they are. -/
def redactCommand (c : SMTPCommand) : SMTPCommand :=
  if c.type = .Authenticate then { c with data := .list (c.data.toList.set 2 .invalid) }
  else c

/-- The view of a state that hides the passwords: the password of every queued
Authenticate operation is blanked and the calls of `socket->write` are dropped from the
trace; everything else, the `logSent` signals included, is kept. -/
def redact (d : QwwSmtpClientPrivate) : QwwSmtpClientPrivate :=
  { d with commandqueue := d.commandqueue.map redactCommand
           trace := d.trace.filter (fun e => !isWrite e) }

/-- The states carried by the `stateChanged` signals of a trace, in order. -/
def stateChanges : List Effect → List State
  | [] => []
  | .stateChanged s :: rest => s :: stateChanges rest
  | _ :: rest => stateChanges rest

/-- The ids carried by the `commandStarted` signals of a trace, in order. -/
def startedIds : List Effect → List Nat
  | [] => []
  | .commandStarted id :: rest => id :: startedIds rest
  | _ :: rest => startedIds rest

/-- The ids carried by the `commandFinished` signals of a trace, in order. -/
def finishedIds : List Effect → List Nat
  | [] => []
  | .commandFinished id _ :: rest => id :: finishedIds rest
  | _ :: rest => finishedIds rest

/-! ## Concrete sessions -/

/-- A fresh client on which `sendMail("a@x", ["b@y", "c@z"], "hello")` has been called: the
Mail operation 1 is at the head, `MAIL FROM` is written, the stage is 0. -/
def mailSession : QwwSmtpClientPrivate :=
  (sendMail (toUtf8 "a@x") [toUtf8 "b@y", toUtf8 "c@z"] (toUtf8 "hello") initial).2

/-- A fresh client after `connectToHost("mx", 25)` and the socket's `connected()`: the
Connect operation 1 is at stage 0, waiting for the banner. -/
def connectSession : QwwSmtpClientPrivate := onConnected (connectToHost "mx" 25 initial).2

/-- The session `connectSession` once `sendEhlo` has run: the Connect operation is at
stage 1. -/
def ehloSession : QwwSmtpClientPrivate := sendEhlo connectSession

/-- A fresh client on which `authenticate("u", "p", mode)` has been called. -/
def authSession (mode : AuthMode) : QwwSmtpClientPrivate :=
  (authenticate "u" "p" mode initial).2

/-- A client whose server has advertised `AUTH PLAIN LOGIN`, with an Authenticate operation
in mode Any waiting in the queue and no operation in progress. -/
def authAnyQueued : QwwSmtpClientPrivate :=
  { parseOption ["AUTH PLAIN LOGIN"] initial with
    commandqueue := [{ id := 1, type := .Authenticate, extra := 0,
                       data := .list [.int AuthMode.AuthAny.value, .string "u", .string "p"] }] }

/-- A client whose server has advertised `AUTH PLAIN` before TLS, on which `startTls()` has
been called: the StartTLS operation 1 is at stage 0. -/
def tlsSession : QwwSmtpClientPrivate := (startTls (parseOption ["AUTH PLAIN"] initial)).2

/-- The session `mailSession` once `sendRcpt` has run for both recipients: the Mail
operation is at stage 1, its recipient list is empty. -/
def mailRcptSession : QwwSmtpClientPrivate := sendRcpt (sendRcpt mailSession)

/-- A fresh client on which `sendMailBurl("a@x", ["b@y"], "imap://h/INBOX;UID=1")` has been
called and `sendRcpt` has run for the one recipient: the MailBurl operation is at stage 1. -/
def burlRcptSession : QwwSmtpClientPrivate :=
  sendRcpt (sendMailBurl (toUtf8 "a@x") [toUtf8 "b@y"] (toUtf8 "imap://h/INBOX;UID=1") initial).2

/-- The session `mailRcptSession` after the reply `250 ok` to the last `RCPT TO`: `DATA` is
written and the Mail operation is at stage 2. -/
def mailDataSession : QwwSmtpClientPrivate :=
  (processResponse (toUtf8 "250 ok\r\n") mailRcptSession (250, ["ok"])).getD mailRcptSession

/-- A fresh client on which `rawCommand("NOOP")` has been called: the RawCommand operation 1
is at the head and `NOOP\r\n` is written. -/
def rawSession : QwwSmtpClientPrivate := (rawCommand "NOOP" initial).2

/-- A fresh client on which `disconnectFromHost()` has been called and whose socket has then
reported `disconnected()`. -/
def quitSession : QwwSmtpClientPrivate := onDisconnected (disconnectFromHost initial).2

/-- The session `authSession AuthLogin` after the body of `case 0334` for LOGIN: the user name
is sent and the Authenticate operation is at stage 1. -/
def loginUserSession : QwwSmtpClientPrivate :=
  setHeadExtra 1 (sendAuthLogin "u" "p" 1 (authSession .AuthLogin))

/-- A client after `connectToHostEncrypted("mx", 465)`, the socket's `connected()` and
`encrypted()`, once `sendEhlo` has run: the transport is encrypted, `localNameEncrypted` is
empty and the Connect operation is at stage 1. -/
def smtpsEhloSession : QwwSmtpClientPrivate :=
  ((run [.connectToHostEncrypted "mx" 465, .socketConnected, .socketEncrypted] initial).map
    sendEhlo).getD initial

/-- The same with `setLocalNameEncrypted("secure.example")` called first. -/
def smtpsNamedEhloSession : QwwSmtpClientPrivate :=
  ((run [.setLocalNameEncrypted "secure.example", .connectToHostEncrypted "mx" 465,
      .socketConnected, .socketEncrypted] initial).map sendEhlo).getD initial

/-! # Properties of the driver -/

/-! ## Fields that the helpers leave alone -/

section frame

variable (d : QwwSmtpClientPrivate)

@[simp] theorem emit_options (e : Effect) : (emit e d).options = d.options := rfl
@[simp] theorem emit_authModes (e : Effect) : (emit e d).authModes = d.authModes := rfl
@[simp] theorem emit_trace (e : Effect) : (emit e d).trace = d.trace ++ [e] := rfl
@[simp] theorem emit_commandqueue (e : Effect) : (emit e d).commandqueue = d.commandqueue := rfl
@[simp] theorem emit_errorString (e : Effect) : (emit e d).errorString = d.errorString := rfl
@[simp] theorem emit_state (e : Effect) : (emit e d).state = d.state := rfl
@[simp] theorem emit_inProgress (e : Effect) : (emit e d).inProgress = d.inProgress := rfl

@[simp] theorem setState_options (s : State) : (setState s d).options = d.options := by
  unfold setState; simp only []; split_ifs <;> rfl
@[simp] theorem setState_authModes (s : State) : (setState s d).authModes = d.authModes := by
  unfold setState; simp only []; split_ifs <;> rfl
@[simp] theorem setState_commandqueue (s : State) :
    (setState s d).commandqueue = d.commandqueue := by
  unfold setState; simp only []; split_ifs <;> rfl
@[simp] theorem setState_errorString (s : State) :
    (setState s d).errorString = d.errorString := by
  unfold setState; simp only []; split_ifs <;> rfl
@[simp] theorem setState_inProgress (s : State) : (setState s d).inProgress = d.inProgress := by
  unfold setState; simp only []; split_ifs <;> rfl
@[simp] theorem setState_state (s : State) : (setState s d).state = s := by
  unfold setState; simp only []; split_ifs <;> rfl

@[simp] theorem setHeadData_options (v : QVariant) : (setHeadData v d).options = d.options := by
  unfold setHeadData; split <;> rfl
@[simp] theorem setHeadData_authModes (v : QVariant) :
    (setHeadData v d).authModes = d.authModes := by
  unfold setHeadData; split <;> rfl
@[simp] theorem setHeadExtra_options (n : Nat) : (setHeadExtra n d).options = d.options := by
  unfold setHeadExtra; split <;> rfl
@[simp] theorem setHeadExtra_authModes (n : Nat) :
    (setHeadExtra n d).authModes = d.authModes := by
  unfold setHeadExtra; split <;> rfl

theorem dispatch_options (cmd : SMTPCommand) : (dispatch cmd d).options = d.options := by
  unfold dispatch
  cases cmd.type <;> simp only [sendQuit] <;> (try split_ifs) <;> simp

theorem dispatch_authModes (cmd : SMTPCommand) : (dispatch cmd d).authModes = d.authModes := by
  unfold dispatch
  cases cmd.type <;> simp only [sendQuit] <;> (try split_ifs) <;> simp

/-- Starting the next operation does not touch the capability set. -/
theorem startCommand_options : (startCommand d).options = d.options := by
  unfold startCommand
  split <;> simp [dispatch_options]

/-- Starting the next operation does not touch the set of authentication modes. -/
theorem startCommand_authModes : (startCommand d).authModes = d.authModes := by
  unfold startCommand
  split <;> simp [dispatch_authModes]

/-- The inner loop of `parseOption` over the mechanisms of an AUTH line only changes the
set of authentication modes. -/
theorem authFold_frame (parts : List QString) :
    ∃ a, parts.foldl
      (fun d s => { d with authModes := d.authModes ||| (text2authmode s).value }) d =
        { d with authModes := a } := by
  induction parts generalizing d with
  | nil => exact ⟨d.authModes, rfl⟩
  | cons p ps ih =>
      obtain ⟨a, h⟩ := ih { d with authModes := d.authModes ||| (text2authmode p).value }
      exact ⟨a, by simp only [List.foldl_cons, h]⟩

/-- Parsing one reply line only changes the two capability fields. -/
theorem parseOptionLine_frame (text : QString) :
    ∃ o a, parseOptionLine d text = { d with options := o, authModes := a } := by
  unfold parseOptionLine
  split
  · exact ⟨d.options, d.authModes, rfl⟩
  · simp only []
    split_ifs
    · obtain ⟨a, h⟩ :=
        authFold_frame { d with options := d.options ||| (text2option ‹_›).value } ‹_›
      exact ⟨_, a, by rw [h]⟩
    · exact ⟨_, d.authModes, rfl⟩

/-- Parsing a reply group only changes the two capability fields. -/
theorem parseOption_frame (texts : List QString) :
    ∃ o a, parseOption texts d = { d with options := o, authModes := a } := by
  unfold parseOption
  induction texts generalizing d with
  | nil => exact ⟨d.options, d.authModes, rfl⟩
  | cons t ts ih =>
      obtain ⟨o, a, h⟩ := parseOptionLine_frame d t
      obtain ⟨o', a', h'⟩ := ih { d with options := o, authModes := a }
      exact ⟨o', a', by simp only [List.foldl_cons, h, h']⟩

@[simp] theorem parseOption_commandqueue (texts : List QString) :
    (parseOption texts d).commandqueue = d.commandqueue := by
  obtain ⟨o, a, h⟩ := parseOption_frame d texts; rw [h]
@[simp] theorem parseOption_inProgress (texts : List QString) :
    (parseOption texts d).inProgress = d.inProgress := by
  obtain ⟨o, a, h⟩ := parseOption_frame d texts; rw [h]
@[simp] theorem parseOption_state (texts : List QString) :
    (parseOption texts d).state = d.state := by
  obtain ⟨o, a, h⟩ := parseOption_frame d texts; rw [h]
@[simp] theorem parseOption_trace (texts : List QString) :
    (parseOption texts d).trace = d.trace := by
  obtain ⟨o, a, h⟩ := parseOption_frame d texts; rw [h]
@[simp] theorem parseOption_errorString (texts : List QString) :
    (parseOption texts d).errorString = d.errorString := by
  obtain ⟨o, a, h⟩ := parseOption_frame d texts; rw [h]

/-- The events of `setState`: `stateChanged`, then `connected` when the state goes from
`Connecting` to `Connected`, then `disconnected` when the new state is `Disconnected`. -/
@[simp] theorem setState_trace (s : State) :
    (setState s d).trace = d.trace ++ .stateChanged s ::
      ((if d.state = .Connecting ∧ s = .Connected then [.connected] else []) ++
        (if s = .Disconnected then [.disconnected] else [])) := by
  unfold setState; simp only []; split_ifs <;> simp [emit]

end frame

/-! ## Mail: the reply to MAIL FROM -/

/-- C1: after `sendMail("a@x", ["b@y", "c@z"], "hello")` the first reply 250 does not make the
driver write `RCPT TO`.  The label `case 0250` is the octal number 168, so the status 250
reaches `default`: the reply text becomes the error string, `done(false)` is emitted and the
operation is completed with `commandFinished(1, false)`; `MAIL FROM` stays the only write and
the queue is empty when the next reply arrives. -/
theorem sendMail_first_250_completes_without_rcpt :
    (processResponse (toUtf8 "250 ok\r\n") mailSession (250, ["ok"])).map
        (fun d => (d.trace, writes d.trace, d.commandqueue.map (fun c => c.id), d.errorString)) =
      some ([.stateChanged .Sending, .logSent (toUtf8 "MAIL FROM:<a@x>\r\n"),
             .write (toUtf8 "MAIL FROM:<a@x>\r\n"), .commandStarted 1,
             .stateChanged .Connected, .done false, .commandFinished 1 false, .done false],
            [toUtf8 "MAIL FROM:<a@x>\r\n"], [], "ok") := by
  decide

/-! ## Connect: the banner -/

/-- A Connect operation at stage 0 ignores a reply group with code 220: with the label
`case 0220` read as the octal number 144, the status 220 matches no label of the Connect
branch. -/
theorem connect_banner_220_ignored (raw : QByteArray) (texts : List QString)
    (d : QwwSmtpClientPrivate) (cmd : SMTPCommand) (rest : List SMTPCommand)
    (hq : d.commandqueue = cmd :: rest) (ht : cmd.type = .Connect) (he : cmd.extra = 0) :
    processResponse raw d (220, texts) = some d := by
  simp [processResponse, hq, ht, he, replyConnect]

/-- C2: after `connectToHost("mx", 25)` and the socket's `connected()`, the banner
`220 mx ready` changes nothing: no `EHLO` is written (nothing has been written at all) and
the Connect operation stays at stage 0 in state `Connecting`. -/
theorem connect_banner_220_no_ehlo :
    processResponse (toUtf8 "220 mx ready\r\n") connectSession (220, ["mx ready"]) =
      some connectSession ∧
    writes connectSession.trace = [] ∧
    connectSession.commandqueue.map (fun c => (c.id, c.extra)) = [(1, 0)] ∧
    connectSession.state = .Connecting :=
  ⟨connect_banner_220_ignored _ _ _ _ _ rfl rfl rfl, by decide, by decide, by decide⟩

/-! ## Connect: the reply to EHLO -/

/-- The reply lines of scenario 1 of the specification give the capability value 7
(`0 | 5 | 2`) and the authentication modes 6 (`2 | 4`). -/
theorem parseOption_scenario (d : QwwSmtpClientPrivate) (ho : d.options = 0)
    (ha : d.authModes = 0) :
    (parseOption ["mx", "PIPELINING", "AUTH PLAIN LOGIN"] d).options = 7 ∧
    (parseOption ["mx", "PIPELINING", "AUTH PLAIN LOGIN"] d).authModes = 6 := by
  have h1 : split (toLower "mx") ' ' = ["mx"] := by decide
  have h2 : split (toLower "PIPELINING") ' ' = ["pipelining"] := by decide
  have h3 : split (toLower "AUTH PLAIN LOGIN") ' ' = ["auth", "plain", "login"] := by decide
  simp [parseOption, parseOptionLine, h1, h2, h3, text2option, text2authmode, ho, ha,
    SmtpOption.value, AuthMode.value]

/-- C3: a Connect operation in progress at stage 1, with empty capability sets, handles a
250 reply by parsing the lines into the capability sets, clearing the error string, setting
the state `Connected`, emitting `commandFinished(id, false)` and dequeuing the operation;
the next operation is then started from that state `d'`, which leaves both capability sets
as parsed.  For the lines `mx`, `PIPELINING`, `AUTH PLAIN LOGIN` the resulting `options()`
has the flags AUTH and PIPELINING and `supportedAuthModes()` is PLAIN together with LOGIN. -/
theorem connect_ehlo_250_completes (raw : QByteArray) (texts : List QString)
    (d : QwwSmtpClientPrivate) (cmd : SMTPCommand) (rest : List SMTPCommand)
    (hq : d.commandqueue = cmd :: rest) (ht : cmd.type = .Connect) (he : cmd.extra = 1)
    (hp : d.inProgress = true) (ho : d.options = 0) (ha : d.authModes = 0) :
    ∃ d', processResponse raw d (250, texts) = some (startCommand d') ∧
      options (startCommand d') = (parseOption texts d).options ∧
      supportedAuthModes (startCommand d') = (parseOption texts d).authModes ∧
      d'.errorString = "" ∧ d'.state = .Connected ∧
      d'.trace = d.trace ++ .stateChanged .Connected ::
        ((if d.state = .Connecting then [.connected] else []) ++
          [.commandFinished cmd.id false]) ∧
      d'.commandqueue = rest ∧
      (texts = ["mx", "PIPELINING", "AUTH PLAIN LOGIN"] →
        testFlag (options (startCommand d')) SmtpOption.AuthOption.value = true ∧
        testFlag (options (startCommand d')) SmtpOption.PipeliningOption.value = true ∧
        supportedAuthModes (startCommand d') =
          AuthMode.AuthPlain.value ||| AuthMode.AuthLogin.value) := by
  have hopt : ∀ d' : QwwSmtpClientPrivate, options (startCommand d') = d'.options :=
    fun d' => startCommand_options d'
  have hauth : ∀ d' : QwwSmtpClientPrivate, supportedAuthModes (startCommand d') = d'.authModes :=
    fun d' => startCommand_authModes d'
  refine ⟨finishCommand true
    (setState .Connected { parseOption texts d with errorString := "" }), ?_, ?_⟩
  · simp [processResponse, hq, ht, he, replyConnect, processNextCommand]
  · rw [hopt, hauth]
    have hfin : finishCommand true
          (setState .Connected { parseOption texts d with errorString := "" }) =
        { emit (.commandFinished cmd.id false)
            (setState .Connected { parseOption texts d with errorString := "" }) with
          commandqueue := rest } := by
      simp [finishCommand, hp, hq]
    rw [hfin]
    refine ⟨by simp, by simp, by simp, by simp, by simp, by simp, ?_⟩
    rintro rfl
    obtain ⟨h7, h6⟩ := parseOption_scenario d ho ha
    simp [h7, h6, testFlag, SmtpOption.value, AuthMode.value]
    decide

/-- C3, at the session `ehloSession` with the reply lines of scenario 1. -/
theorem connect_ehlo_250_completes_witness :
    (ehloSession.commandqueue =
        [{ id := 1, type := .Connect, extra := 1,
           data := .list [.string "mx", .uint 25, .bool false] }] ∧
      ehloSession.inProgress = true ∧ ehloSession.options = 0 ∧ ehloSession.authModes = 0) ∧
    ∃ d', processResponse (toUtf8 "250-mx\r\n250-PIPELINING\r\n250 AUTH PLAIN LOGIN\r\n")
          ehloSession (250, ["mx", "PIPELINING", "AUTH PLAIN LOGIN"]) =
        some (startCommand d') ∧
      options (startCommand d') =
        (parseOption ["mx", "PIPELINING", "AUTH PLAIN LOGIN"] ehloSession).options ∧
      supportedAuthModes (startCommand d') =
        (parseOption ["mx", "PIPELINING", "AUTH PLAIN LOGIN"] ehloSession).authModes ∧
      d'.errorString = "" ∧ d'.state = .Connected ∧
      d'.trace = ehloSession.trace ++ .stateChanged .Connected ::
        ((if ehloSession.state = .Connecting then [.connected] else []) ++
          [.commandFinished 1 false]) ∧
      d'.commandqueue = [] ∧
      (["mx", "PIPELINING", "AUTH PLAIN LOGIN"] = ["mx", "PIPELINING", "AUTH PLAIN LOGIN"] →
        testFlag (options (startCommand d')) SmtpOption.AuthOption.value = true ∧
        testFlag (options (startCommand d')) SmtpOption.PipeliningOption.value = true ∧
        supportedAuthModes (startCommand d') =
          AuthMode.AuthPlain.value ||| AuthMode.AuthLogin.value) :=
  ⟨⟨rfl, rfl, rfl, rfl⟩,
    connect_ehlo_250_completes _ _ ehloSession
      { id := 1, type := .Connect, extra := 1,
        data := .list [.string "mx", .uint 25, .bool false] } [] rfl rfl rfl rfl rfl rfl⟩

/-! ## Connect: the fallback to HELO -/

/-- C4: a Connect operation in progress at stage 1 on a plaintext transport, with an empty
capability set, handles a reply 421, 501, 502 or 554 by setting the error string to the
joined reply lines, writing `HELO <localName>\r\n` and moving to stage 2, the operation
staying at the head; a following 250 reply clears the error string, sets the state
`Connected`, emits `commandFinished(id, false)` and dequeues the operation, `options()`
being still empty when the next operation has been started. -/
theorem connect_helo_fallback (raw raw2 : QByteArray) (texts texts2 : List QString)
    (code : Nat) (d : QwwSmtpClientPrivate) (cmd : SMTPCommand) (rest : List SMTPCommand)
    (hq : d.commandqueue = cmd :: rest) (ht : cmd.type = .Connect) (he : cmd.extra = 1)
    (hp : d.inProgress = true) (hs : d.socket.isEncrypted = false) (ho : d.options = 0)
    (hc : code = 421 ∨ code = 501 ∨ code = 502 ∨ code = 554) :
    ∃ d1 d2, processResponse raw d (code, texts) = some d1 ∧
      d1.errorString = joinLines texts ∧
      d1.trace = d.trace ++ [.logSent (toUtf8 ("HELO " ++ d.localName ++ "\r\n")),
                             .write (toUtf8 ("HELO " ++ d.localName ++ "\r\n"))] ∧
      d1.commandqueue = { cmd with extra := 2 } :: rest ∧
      d1.state = d.state ∧
      processResponse raw2 d1 (250, texts2) = some (startCommand d2) ∧
      d2.errorString = "" ∧ d2.state = .Connected ∧
      d2.trace = d1.trace ++ .stateChanged .Connected ::
        ((if d.state = .Connecting then [.connected] else []) ++
          [.commandFinished cmd.id false]) ∧
      d2.commandqueue = rest ∧
      options (startCommand d2) = 0 := by
  have hopt : ∀ d' : QwwSmtpClientPrivate, options (startCommand d') = d'.options :=
    fun d' => startCommand_options d'
  let D1 : QwwSmtpClientPrivate :=
    { d with errorString := joinLines texts,
             trace := d.trace ++ [.logSent (toUtf8 ("HELO " ++ d.localName ++ "\r\n")),
                                  .write (toUtf8 ("HELO " ++ d.localName ++ "\r\n"))],
             commandqueue := { cmd with extra := 2 } :: rest }
  have hd1 : setHeadExtra 2 (sendHelo { d with errorString := joinLines texts }) = D1 := by
    simp [D1, sendHelo, setHeadExtra, emit, hq, hs]
  have h1 : processResponse raw d (code, texts) = some D1 := by
    rw [← hd1]
    rcases hc with rfl | rfl | rfl | rfl <;>
      simp [processResponse, hq, ht, he, replyConnect]
  refine ⟨D1, finishCommand true (setState .Connected { D1 with errorString := "" }), h1, rfl,
    rfl, rfl, rfl, ?_, ?_⟩
  · simp [D1, processResponse, ht, replyConnect, processNextCommand]
  · rw [hopt]
    simp [D1, finishCommand, hp, ho]

/-- C4, at the session `ehloSession` with the replies `502 Unknown` and `250 old`. -/
theorem connect_helo_fallback_witness :
    (ehloSession.commandqueue =
        [{ id := 1, type := .Connect, extra := 1,
           data := .list [.string "mx", .uint 25, .bool false] }] ∧
      ehloSession.inProgress = true ∧ ehloSession.socket.isEncrypted = false ∧
      ehloSession.options = 0 ∧
      ((502 : Nat) = 421 ∨ (502 : Nat) = 501 ∨ (502 : Nat) = 502 ∨ (502 : Nat) = 554)) ∧
    ∃ d1 d2, processResponse (toUtf8 "502 Unknown\r\n") ehloSession (502, ["Unknown"]) =
        some d1 ∧
      d1.errorString = joinLines ["Unknown"] ∧
      d1.trace = ehloSession.trace ++
        [.logSent (toUtf8 ("HELO " ++ ehloSession.localName ++ "\r\n")),
         .write (toUtf8 ("HELO " ++ ehloSession.localName ++ "\r\n"))] ∧
      d1.commandqueue =
        [{ id := 1, type := .Connect, extra := 2,
           data := .list [.string "mx", .uint 25, .bool false] }] ∧
      d1.state = ehloSession.state ∧
      processResponse (toUtf8 "250 old\r\n") d1 (250, ["old"]) = some (startCommand d2) ∧
      d2.errorString = "" ∧ d2.state = .Connected ∧
      d2.trace = d1.trace ++ .stateChanged .Connected ::
        ((if ehloSession.state = .Connecting then [.connected] else []) ++
          [.commandFinished 1 false]) ∧
      d2.commandqueue = [] ∧
      options (startCommand d2) = 0 :=
  ⟨⟨rfl, rfl, rfl, rfl, by decide⟩,
    connect_helo_fallback _ _ _ _ 502 ehloSession
      { id := 1, type := .Connect, extra := 1,
        data := .list [.string "mx", .uint 25, .bool false] } [] rfl rfl rfl rfl rfl rfl
      (by decide)⟩

/-! ## Authenticate: the dispatch -/

/-- C5: starting an Authenticate operation whose requested mode is Any writes
`AUTH PLAIN\r\n` when PLAIN is among the advertised modes (LOGIN advertised or not),
otherwise `AUTH LOGIN\r\n` when LOGIN is, and in both cases sets the state
`Authenticating`; otherwise nothing is written, the error string becomes
"Unsupported or unknown authentication scheme" and `done(false)` is emitted. -/
theorem authenticate_any_dispatch (user password : QString) (d : QwwSmtpClientPrivate)
    (cmd : SMTPCommand) (rest : List SMTPCommand)
    (hq : d.commandqueue = cmd :: rest) (ht : cmd.type = .Authenticate)
    (hd : cmd.data = .list [.int AuthMode.AuthAny.value, .string user, .string password]) :
    (startCommand d).trace = d.trace ++
      (if testFlag d.authModes AuthMode.AuthPlain.value = true then
        [.logSent (toUtf8 "AUTH PLAIN\r\n"), .write (toUtf8 "AUTH PLAIN\r\n"),
         .stateChanged .Authenticating]
      else if testFlag d.authModes AuthMode.AuthLogin.value = true then
        [.logSent (toUtf8 "AUTH LOGIN\r\n"), .write (toUtf8 "AUTH LOGIN\r\n"),
         .stateChanged .Authenticating]
      else [.done false]) ++ [.commandStarted cmd.id] ∧
    (startCommand d).state =
      (if testFlag d.authModes AuthMode.AuthPlain.value = true ∨
          testFlag d.authModes AuthMode.AuthLogin.value = true then .Authenticating
       else d.state) ∧
    (startCommand d).errorString =
      (if testFlag d.authModes AuthMode.AuthPlain.value = true ∨
          testFlag d.authModes AuthMode.AuthLogin.value = true then d.errorString
       else "Unsupported or unknown authentication scheme") := by
  simp only [AuthMode.value] at hd ⊢
  by_cases hplain : testFlag d.authModes 2 = true
  · simp [startCommand, hq, dispatch, ht, hd, atIndex, QVariant.toList, QVariant.toInt, hplain,
      AuthMode.value, setHeadData]
  · by_cases hlogin : testFlag d.authModes 4 = true
    · simp [startCommand, hq, dispatch, ht, hd, atIndex, QVariant.toList, QVariant.toInt,
        hplain, hlogin, AuthMode.value, setHeadData]
    · simp [startCommand, hq, dispatch, ht, hd, atIndex, QVariant.toList, QVariant.toInt,
        hplain, hlogin, AuthMode.value]

/-- C5, at the session `authAnyQueued`, whose server advertised both PLAIN and LOGIN. -/
theorem authenticate_any_dispatch_witness :
    (authAnyQueued.commandqueue =
        [{ id := 1, type := .Authenticate, extra := 0,
           data := .list [.int AuthMode.AuthAny.value, .string "u", .string "p"] }] ∧
      testFlag authAnyQueued.authModes AuthMode.AuthPlain.value = true ∧
      testFlag authAnyQueued.authModes AuthMode.AuthLogin.value = true) ∧
    ((startCommand authAnyQueued).trace = authAnyQueued.trace ++
      (if testFlag authAnyQueued.authModes AuthMode.AuthPlain.value = true then
        [.logSent (toUtf8 "AUTH PLAIN\r\n"), .write (toUtf8 "AUTH PLAIN\r\n"),
         .stateChanged .Authenticating]
      else if testFlag authAnyQueued.authModes AuthMode.AuthLogin.value = true then
        [.logSent (toUtf8 "AUTH LOGIN\r\n"), .write (toUtf8 "AUTH LOGIN\r\n"),
         .stateChanged .Authenticating]
      else [.done false]) ++ [.commandStarted 1] ∧
    (startCommand authAnyQueued).state =
      (if testFlag authAnyQueued.authModes AuthMode.AuthPlain.value = true ∨
          testFlag authAnyQueued.authModes AuthMode.AuthLogin.value = true then
        .Authenticating
       else authAnyQueued.state) ∧
    (startCommand authAnyQueued).errorString =
      (if testFlag authAnyQueued.authModes AuthMode.AuthPlain.value = true ∨
          testFlag authAnyQueued.authModes AuthMode.AuthLogin.value = true then
        authAnyQueued.errorString
       else "Unsupported or unknown authentication scheme")) :=
  ⟨⟨rfl, by decide, by decide⟩,
    authenticate_any_dispatch "u" "p" authAnyQueued
      { id := 1, type := .Authenticate, extra := 0,
        data := .list [.int AuthMode.AuthAny.value, .string "u", .string "p"] } [] rfl rfl rfl⟩

/-! ## Authenticate: the replies -/

/-- C6: after `authenticate("u", "p", AuthPlain)` (and likewise with `AuthLogin`) a 334
reply at stage 0 sends no credentials.  The label `case 0334` is the octal number 220, so
the status 334 reaches `default`: the reply text becomes the error string, the state
becomes `Connected`, `done(false)` is emitted, nothing is written after the AUTH verb and
the stage stays 0. -/
theorem auth_334_at_stage0_sends_no_credentials :
    (processResponse (toUtf8 "334 \r\n") (authSession .AuthPlain) (334, [""])).map
        (fun d => (d.trace, d.commandqueue.map (fun c => (c.id, c.extra)), d.state)) =
      some ([.logSent (toUtf8 "AUTH PLAIN\r\n"), .write (toUtf8 "AUTH PLAIN\r\n"),
             .stateChanged .Authenticating, .commandStarted 1,
             .stateChanged .Connected, .done false],
            [(1, 0)], .Connected) ∧
    (processResponse (toUtf8 "334 VXNlcm5hbWU6\r\n") (authSession .AuthLogin)
          (334, ["VXNlcm5hbWU6"])).map
        (fun d => (d.trace, d.commandqueue.map (fun c => (c.id, c.extra)), d.state)) =
      some ([.logSent (toUtf8 "AUTH LOGIN\r\n"), .write (toUtf8 "AUTH LOGIN\r\n"),
             .stateChanged .Authenticating, .commandStarted 1,
             .stateChanged .Connected, .done false],
            [(1, 0)], .Connected) := by
  decide

/-- C7: after `authenticate("u", "p", AuthPlain)` a 235 reply at stage 0 is not treated as
success.  The label `case 0235` is the octal number 157, so the status 235 reaches
`default`: the reply text becomes the error string and `done(false)` is emitted; neither
`authenticated` nor `commandFinished` is emitted and the operation stays at the head. -/
theorem auth_235_at_stage0_fails :
    (processResponse (toUtf8 "235 ok\r\n") (authSession .AuthPlain) (235, ["ok"])).map
        (fun d => (d.trace, d.commandqueue.map (fun c => (c.id, c.extra)), d.errorString)) =
      some ([.logSent (toUtf8 "AUTH PLAIN\r\n"), .write (toUtf8 "AUTH PLAIN\r\n"),
             .stateChanged .Authenticating, .commandStarted 1,
             .stateChanged .Connected, .done false],
            [(1, 0)], "ok") := by
  decide

/-- At stages 1 and 2 an Authenticate operation in progress does treat a 235 reply as
success: the error string is cleared, `authenticated` is emitted, the state becomes
`Connected`, `commandFinished(id, false)` is emitted and the operation is dequeued. -/
theorem auth_235_after_challenge_succeeds (raw : QByteArray) (texts : List QString)
    (d : QwwSmtpClientPrivate) (cmd : SMTPCommand) (rest : List SMTPCommand)
    (hq : d.commandqueue = cmd :: rest) (ht : cmd.type = .Authenticate)
    (he : cmd.extra = 1 ∨ cmd.extra = 2) (hp : d.inProgress = true) :
    ∃ d', processResponse raw d (235, texts) = some (startCommand d') ∧
      d'.errorString = "" ∧ d'.state = .Connected ∧
      d'.trace = d.trace ++ [.authenticated, .stateChanged .Connected] ++
        ((if d.state = .Connecting then [.connected] else []) ++
          [.commandFinished cmd.id false]) ∧
      d'.commandqueue = rest := by
  refine ⟨finishCommand true
    (setState .Connected (emit .authenticated { d with errorString := "" })), ?_, ?_⟩
  · rcases he with he | he <;>
      simp [processResponse, hq, ht, he, replyAuthenticate, processNextCommand]
  · simp [finishCommand, hp, hq]

/-- C8: after `authenticate("u", "p", AuthPlain)` the reply `535 bad` does not complete the
operation. The `default` branch of the Authenticate switch records the reply text, sets the
state `Connected` and emits `done(false)`, but it never calls `processNextCommand`: no
`commandFinished(1, true)` is emitted, the operation 1 stays at the head of the queue and
`inProgress` stays true. A `disconnectFromHost()` called afterwards is queued behind it and
never dispatched: `AUTH PLAIN` stays the only write. -/
theorem auth_535_emits_no_commandFinished :
    (processResponse (toUtf8 "535 bad\r\n") (authSession .AuthPlain) (535, ["bad"])).map
        (fun d => (d.trace, decide (Effect.commandFinished 1 true ∈ d.trace))) =
      some ([.logSent (toUtf8 "AUTH PLAIN\r\n"), .write (toUtf8 "AUTH PLAIN\r\n"),
             .stateChanged .Authenticating, .commandStarted 1,
             .stateChanged .Connected, .done false],
            false) ∧
    (processResponse (toUtf8 "535 bad\r\n") (authSession .AuthPlain) (535, ["bad"])).map
        (fun d => (d.errorString, d.state, d.inProgress,
          d.commandqueue.map (fun c => (c.id, c.type)))) =
      some ("bad", .Connected, true, [(1, .Authenticate)]) ∧
    (processResponse (toUtf8 "535 bad\r\n") (authSession .AuthPlain) (535, ["bad"])).map
        (fun d => (writes (disconnectFromHost d).2.trace, startedIds (disconnectFromHost d).2.trace,
          (disconnectFromHost d).2.commandqueue.map (fun c => (c.id, c.type)))) =
      some ([toUtf8 "AUTH PLAIN\r\n"], [1], [(1, .Authenticate), (2, .Disconnect)]) :=
  ⟨by decide, by decide, by decide⟩

/-- The `default` branch of the Authenticate switch: for an Authenticate operation at the
head of the queue, at any stage, a reply with a code from 500 to 599 sets the error string to
the joined reply lines, sets the state `Connected` and emits `done(false)`; `inProgress` and
the queue are left as they are, so that no `commandFinished` is emitted and the operation
stays at the head. -/
theorem auth_5xx_reaches_default (raw : QByteArray) (texts : List QString) (code : Nat)
    (d : QwwSmtpClientPrivate) (cmd : SMTPCommand) (rest : List SMTPCommand)
    (hq : d.commandqueue = cmd :: rest) (ht : cmd.type = .Authenticate)
    (hc : 500 ≤ code ∧ code ≤ 599) :
    processResponse raw d (code, texts) =
      some { d with errorString := joinLines texts, state := .Connected,
                    trace := d.trace ++ .stateChanged .Connected ::
                      ((if d.state = .Connecting then [.connected] else []) ++
                        [.done false]) } := by
  have h1 : ¬ (code + cmd.extra * 1000 = 0o235 ∨ code + cmd.extra * 1000 = 1235 ∨
      code + cmd.extra * 1000 = 2235) := by omega
  have h2 : ¬ code + cmd.extra * 1000 = 0o334 := by omega
  have h3 : ¬ code + cmd.extra * 1000 = 1334 := by omega
  have h4 : ¬ code + cmd.extra * 1000 = 2334 := by omega
  simp only [processResponse, hq, ht, replyAuthenticate, h1, h2, h3, h4, if_false]
  unfold setState emit
  by_cases hs : d.state = .Connecting <;> simp [hs]

/-- The sibling failure path `case 2334` of the same switch does complete the operation: for
an Authenticate operation in progress at stage 2, the reply 334 sets the error string to the
joined reply lines, sets the state `Connected`, emits `commandFinished(id, false)` and
dequeues the operation; the next operation, if any, is then started. -/
theorem auth_2334_completes (raw : QByteArray) (texts : List QString)
    (d : QwwSmtpClientPrivate) (cmd : SMTPCommand) (rest : List SMTPCommand)
    (hq : d.commandqueue = cmd :: rest) (ht : cmd.type = .Authenticate)
    (he : cmd.extra = 2) (hp : d.inProgress = true) :
    ∃ d', processResponse raw d (334, texts) = some (startCommand d') ∧
      d'.errorString = joinLines texts ∧ d'.state = .Connected ∧
      d'.trace = d.trace ++ .stateChanged .Connected ::
        ((if d.state = .Connecting then [.connected] else []) ++
          [.commandFinished cmd.id false]) ∧
      d'.commandqueue = rest := by
  refine ⟨finishCommand true (setState .Connected { d with errorString := joinLines texts }),
    ?_, ?_⟩
  · simp [processResponse, hq, ht, he, replyAuthenticate, processNextCommand]
  · simp [finishCommand, hp, hq]

/-! ## StartTLS -/

/-- C9: after `startTls()` the reply `220 go` at stage 0 does not start the TLS handshake.
The label `case 0220` is the octal number 144, so the status 220 reaches `default`: the
failure is logged, the error string becomes "TLS failed" and `done(false)` is emitted;
`startClientEncryption` is not called. -/
theorem starttls_220_treated_as_failure :
    (processResponse (toUtf8 "220 go\r\n") (startTls initial).2 (220, ["go"])).map
        (fun d => (d.trace, d.errorString,
          decide (Effect.startClientEncryption ∈ d.trace))) =
      some ([.logSent (toUtf8 "STARTTLS\r\n"), .write (toUtf8 "STARTTLS\r\n"),
             .stateChanged .TLSRequested, .commandStarted 1,
             .logReceived (toUtf8 "*** TLS failed at stage 0: 220 go\r\n"),
             .done false],
            "TLS failed", false) := by
  decide

/-- C10: the authentication modes persist across STARTTLS.  In the session `tlsSession` the
server advertised `AUTH PLAIN` before TLS; after the socket's `encrypted()` and the reply
`250 mx` to the new EHLO, `options()` is empty but `supportedAuthModes()` is still PLAIN,
although the reply `250 mx` alone parses to no authentication mode: `_q_encrypted` resets
`options` and not `authModes`. -/
theorem starttls_keeps_auth_modes :
    ((socketEncrypted tlsSession).bind
        (fun d => processResponse (toUtf8 "250 mx\r\n") d (250, ["mx"]))).map
        (fun d => (options d, supportedAuthModes d)) =
      some (0, AuthMode.AuthPlain.value) ∧
    supportedAuthModes (parseOption ["mx"] initial) = 0 := by
  decide

/-! ## Mail and MailBurl: after the recipients -/

/-- C15: for a Mail or MailBurl operation at stage 1, a 250 reply makes the driver write
exactly `DATA\r\n` (Mail) or `BURL <url> LAST\r\n` (MailBurl, `url` being the third
parameter of the operation), clears the error string and sets the stage to 2; the operation
stays at the head of the queue and nothing else is emitted. -/
theorem mail_stage1_250_sends_data_or_burl (raw : QByteArray) (texts : List QString)
    (d : QwwSmtpClientPrivate) (cmd : SMTPCommand) (rest : List SMTPCommand)
    (sender payload : QByteArray) (rcpts : List QVariant)
    (hq : d.commandqueue = cmd :: rest) (ht : cmd.type = .Mail ∨ cmd.type = .MailBurl)
    (he : cmd.extra = 1)
    (hd : cmd.data = .list [.byteArray sender, .list rcpts, .byteArray payload]) :
    processResponse raw d (250, texts) =
      some { d with
        errorString := ""
        trace := d.trace ++
          [.logSent (if cmd.type = .MailBurl then toUtf8 "BURL " ++ payload ++ toUtf8 " LAST\r\n"
                     else toUtf8 "DATA\r\n"),
           .write (if cmd.type = .MailBurl then toUtf8 "BURL " ++ payload ++ toUtf8 " LAST\r\n"
                   else toUtf8 "DATA\r\n")]
        commandqueue := { cmd with extra := 2 } :: rest } := by
  rcases ht with ht | ht <;>
    simp [processResponse, hq, ht, he, hd, replyMail, setHeadExtra, emit, atIndex,
      QVariant.toList, QVariant.toByteArray]

/-- C15, at the session `burlRcptSession`. -/
theorem mail_stage1_250_sends_data_or_burl_witness :
    (burlRcptSession.commandqueue =
        [{ id := 1, type := .MailBurl, extra := 1,
           data := .list [.byteArray (toUtf8 "a@x"), .list [],
                          .byteArray (toUtf8 "imap://h/INBOX;UID=1")] }] ∧
      (CommandType.MailBurl = .Mail ∨ CommandType.MailBurl = .MailBurl)) ∧
    processResponse (toUtf8 "250 ok\r\n") burlRcptSession (250, ["ok"]) =
      some { burlRcptSession with
        errorString := ""
        trace := burlRcptSession.trace ++
          [.logSent (if CommandType.MailBurl = .MailBurl then
              toUtf8 "BURL " ++ toUtf8 "imap://h/INBOX;UID=1" ++ toUtf8 " LAST\r\n"
            else toUtf8 "DATA\r\n"),
           .write (if CommandType.MailBurl = .MailBurl then
              toUtf8 "BURL " ++ toUtf8 "imap://h/INBOX;UID=1" ++ toUtf8 " LAST\r\n"
            else toUtf8 "DATA\r\n")]
        commandqueue :=
          [{ id := 1, type := .MailBurl, extra := 2,
             data := .list [.byteArray (toUtf8 "a@x"), .list [],
                            .byteArray (toUtf8 "imap://h/INBOX;UID=1")] }] } :=
  ⟨⟨rfl, by decide⟩,
    mail_stage1_250_sends_data_or_burl _ _ burlRcptSession
      { id := 1, type := .MailBurl, extra := 1,
        data := .list [.byteArray (toUtf8 "a@x"), .list [],
                       .byteArray (toUtf8 "imap://h/INBOX;UID=1")] } []
      (toUtf8 "a@x") (toUtf8 "imap://h/INBOX;UID=1") [] rfl (by decide) rfl rfl⟩

/-- C16: for a Mail operation in progress at stage 2, a 354 reply makes the driver write the
body bytes as given by the caller followed by `\r\n.\r\n`, and sets the stage to 3; a
following 250 reply clears the error string, sets the state `Connected`, emits
`commandFinished(id, false)` and dequeues the operation (the next operation is then
started from that state `d2`). -/
theorem mail_data_354_then_250 (raw raw2 : QByteArray) (texts texts2 : List QString)
    (d : QwwSmtpClientPrivate) (cmd : SMTPCommand) (rest : List SMTPCommand)
    (sender body : QByteArray) (rcpts : List QVariant)
    (hq : d.commandqueue = cmd :: rest) (ht : cmd.type = .Mail) (he : cmd.extra = 2)
    (hp : d.inProgress = true)
    (hd : cmd.data = .list [.byteArray sender, .list rcpts, .byteArray body]) :
    ∃ d1 d2, processResponse raw d (354, texts) = some d1 ∧
      d1 = { d with
        errorString := ""
        trace := d.trace ++ [.logSent (body ++ toUtf8 "\r\n.\r\n"),
                             .write (body ++ toUtf8 "\r\n.\r\n")]
        commandqueue := { cmd with extra := 3 } :: rest } ∧
      processResponse raw2 d1 (250, texts2) = some (startCommand d2) ∧
      d2.errorString = "" ∧ d2.state = .Connected ∧
      d2.trace = d1.trace ++ .stateChanged .Connected ::
        ((if d.state = .Connecting then [.connected] else []) ++
          [.commandFinished cmd.id false]) ∧
      d2.commandqueue = rest := by
  let D1 : QwwSmtpClientPrivate :=
    { d with
      errorString := ""
      trace := d.trace ++ [.logSent (body ++ toUtf8 "\r\n.\r\n"),
                           .write (body ++ toUtf8 "\r\n.\r\n")]
      commandqueue := { cmd with extra := 3 } :: rest }
  refine ⟨D1, finishCommand true (setState .Connected { D1 with errorString := "" }), ?_, rfl,
    ?_, ?_⟩
  · simp [D1, processResponse, hq, ht, he, hd, replyMail, setHeadExtra, emit, atIndex,
      QVariant.toList, QVariant.toByteArray]
  · simp [D1, processResponse, ht, replyMail, processNextCommand]
  · simp [D1, finishCommand, hp]

/-- C16, at the session `mailDataSession` with the body `hello`. -/
theorem mail_data_354_then_250_witness :
    (mailDataSession.commandqueue =
        [{ id := 1, type := .Mail, extra := 2,
           data := .list [.byteArray (toUtf8 "a@x"), .list [],
                          .byteArray (toUtf8 "hello")] }] ∧
      mailDataSession.inProgress = true) ∧
    ∃ d1 d2, processResponse (toUtf8 "354 go\r\n") mailDataSession (354, ["go"]) = some d1 ∧
      d1 = { mailDataSession with
        errorString := ""
        trace := mailDataSession.trace ++ [.logSent (toUtf8 "hello" ++ toUtf8 "\r\n.\r\n"),
                                           .write (toUtf8 "hello" ++ toUtf8 "\r\n.\r\n")]
        commandqueue :=
          [{ id := 1, type := .Mail, extra := 3,
             data := .list [.byteArray (toUtf8 "a@x"), .list [],
                            .byteArray (toUtf8 "hello")] }] } ∧
      processResponse (toUtf8 "250 queued\r\n") d1 (250, ["queued"]) =
        some (startCommand d2) ∧
      d2.errorString = "" ∧ d2.state = .Connected ∧
      d2.trace = d1.trace ++ .stateChanged .Connected ::
        ((if mailDataSession.state = .Connecting then [.connected] else []) ++
          [.commandFinished 1 false]) ∧
      d2.commandqueue = [] :=
  ⟨⟨rfl, rfl⟩,
    mail_data_354_then_250 _ _ _ _ mailDataSession
      { id := 1, type := .Mail, extra := 2,
        data := .list [.byteArray (toUtf8 "a@x"), .list [], .byteArray (toUtf8 "hello")] } []
      (toUtf8 "a@x") (toUtf8 "hello") [] rfl rfl rfl rfl rfl⟩

/-! ## Mail and MailBurl: failure replies -/

/-- C14: after `sendMail("a@x", ["b@y", "c@z"], "hello")` a failure reply to `MAIL FROM`
completes the operation with `commandFinished(1, false)`, not `commandFinished(1, true)`.
The reply `550 no` reaches the `default` branch of the Mail switch, which records the reply
text, sets the state `Connected`, emits `done(false)` and calls `processNextCommand()` with
`ok = true`. The reply `421 try later` takes the same path, because the label `case 0421` is
the octal number 273. In both cases the operation is dequeued and the queue is left empty. -/
theorem mail_550_finishes_without_error_flag :
    (processResponse (toUtf8 "550 no\r\n") mailSession (550, ["no"])).map
        (fun d => (d.trace, d.errorString,
          decide (Effect.commandFinished 1 true ∈ d.trace))) =
      some ([.stateChanged .Sending, .logSent (toUtf8 "MAIL FROM:<a@x>\r\n"),
             .write (toUtf8 "MAIL FROM:<a@x>\r\n"), .commandStarted 1,
             .stateChanged .Connected, .done false, .commandFinished 1 false, .done false],
            "no", false) ∧
    (processResponse (toUtf8 "421 try later\r\n") mailSession (421, ["try later"])).map
        (fun d => (d.trace, d.errorString,
          decide (Effect.commandFinished 1 true ∈ d.trace))) =
      some ([.stateChanged .Sending, .logSent (toUtf8 "MAIL FROM:<a@x>\r\n"),
             .write (toUtf8 "MAIL FROM:<a@x>\r\n"), .commandStarted 1,
             .stateChanged .Connected, .done false, .commandFinished 1 false, .done false],
            "try later", false) :=
  ⟨by decide, by decide⟩

/-- The body of the label `case 0421` passes `ok = false`: the status 273, the value of the
octal literal, completes the Mail operation with `commandFinished(1, true)` and no
`done(false)` before it. -/
theorem mail_label_0421_reports_error :
    (processResponse (toUtf8 "273 try later\r\n") mailSession (273, ["try later"])).map
        (fun d => (d.trace, d.errorString)) =
      some ([.stateChanged .Sending, .logSent (toUtf8 "MAIL FROM:<a@x>\r\n"),
             .write (toUtf8 "MAIL FROM:<a@x>\r\n"), .commandStarted 1,
             .stateChanged .Connected, .commandFinished 1 true, .done false],
            "try later") := by
  decide

/-- The `default` branch of the Mail switch: for a Mail or MailBurl operation in progress at
any stage, a reply with a code from 400 to 599 sets the error string to the joined reply
lines, sets the state `Connected`, emits `done(false)` and then `commandFinished(id, false)`
and dequeues the operation; the next operation, if any, is then started from that state
`d'`. -/
theorem mail_failure_reaches_default (raw : QByteArray) (texts : List QString) (code : Nat)
    (d : QwwSmtpClientPrivate) (cmd : SMTPCommand) (rest : List SMTPCommand)
    (hq : d.commandqueue = cmd :: rest) (ht : cmd.type = .Mail ∨ cmd.type = .MailBurl)
    (hp : d.inProgress = true) (hc : 400 ≤ code ∧ code ≤ 599) :
    ∃ d', processResponse raw d (code, texts) = some (startCommand d') ∧
      d'.errorString = joinLines texts ∧ d'.state = .Connected ∧
      d'.trace = d.trace ++ .stateChanged .Connected ::
        ((if d.state = .Connecting then [.connected] else []) ++
          [.done false, .commandFinished cmd.id false]) ∧
      d'.commandqueue = rest := by
  have h1 : ¬ code + cmd.extra * 1000 = 0o250 := by omega
  have h2 : ¬ code + cmd.extra * 1000 = 0o421 := by omega
  have h3 : ¬ code + cmd.extra * 1000 = 1250 := by omega
  have h4 : ¬ (code + cmd.extra * 1000 = 2250 ∨ code + cmd.extra * 1000 = 3250) := by omega
  have h5 : ¬ code + cmd.extra * 1000 = 2354 := by omega
  refine ⟨finishCommand true (emit (.done false)
    (setState .Connected { d with errorString := joinLines texts })), ?_, ?_⟩
  · rcases ht with ht | ht <;>
      simp [processResponse, hq, ht, replyMail, h1, h2, h3, h4, h5, processNextCommand]
  · simp [finishCommand, hp, hq]

/-! ## RawCommand -/

/-- The reply loop has no case for a RawCommand operation: whatever the reply group, the
state is left as it is. -/
theorem rawCommand_reply_ignored (raw : QByteArray) (response : Nat × List QString)
    (d : QwwSmtpClientPrivate) (cmd : SMTPCommand) (rest : List SMTPCommand)
    (hq : d.commandqueue = cmd :: rest) (ht : cmd.type = .RawCommand) :
    processResponse raw d response = some d := by
  simp [processResponse, hq, ht]

/-- C17: after `rawCommand("NOOP")` the reply `250 ok` changes nothing: the operation stays at
the head of the queue, and the trace holds the events of the dispatch only, with neither
`commandFinished(1, _)` nor `rawCommandReply(250, "ok")`. -/
theorem rawCommand_never_completes :
    processResponse (toUtf8 "250 ok\r\n") rawSession (250, ["ok"]) = some rawSession ∧
    rawSession.trace =
      [.stateChanged .Sending, .logSent (toUtf8 "NOOP\r\n"), .write (toUtf8 "NOOP\r\n"),
       .commandStarted 1] ∧
    rawSession.commandqueue.map (fun c => (c.id, c.type)) = [(1, .RawCommand)] :=
  ⟨rawCommand_reply_ignored _ _ _ _ _ rfl rfl, by decide, by decide⟩

/-! ## The socket is disconnected -/

/-- C18: after `disconnectFromHost()` and the socket's `disconnected()`, the Disconnect
operation 1 is still at the head of the queue (`done(true)` is emitted and the state is
`Disconnected`); `connectToHost("mx", 25)` called afterwards dispatches that Disconnect
operation a second time (`QUIT` is written again and `commandStarted(1)` is emitted again)
and the Connect operation 2 stays behind it, not started. -/
theorem disconnect_stays_at_head :
    quitSession.commandqueue.map (fun c => (c.id, c.type)) = [(1, .Disconnect)] ∧
    quitSession.state = .Disconnected ∧
    quitSession.trace =
      [.logSent (toUtf8 "QUIT\r\n"), .write (toUtf8 "QUIT\r\n"), .waitForBytesWritten 1000,
       .disconnectFromHost, .stateChanged .Disconnecting, .commandStarted 1,
       .stateChanged .Disconnected, .disconnected, .done true] ∧
    (connectToHost "mx" 25 quitSession).2.trace = quitSession.trace ++
      [.logSent (toUtf8 "QUIT\r\n"), .write (toUtf8 "QUIT\r\n"), .waitForBytesWritten 1000,
       .disconnectFromHost, .stateChanged .Disconnecting, .commandStarted 1] ∧
    (connectToHost "mx" 25 quitSession).2.commandqueue.map (fun c => (c.id, c.type)) =
      [(1, .Disconnect), (2, .Connect)] := by
  decide

/-- C19: when the socket reports `disconnected()` while the queue is not empty and its head
is not a Disconnect operation, the driver sets the state `Disconnected`, emits
`commandFinished(headId, true)` once, empties the queue without any event for the other
operations, clears `inProgress` and emits `done(false)`; a socket error does the same after
emitting `socketError`. -/
theorem unexpected_disconnect_aborts_queue (e : Nat) (message : QString)
    (d : QwwSmtpClientPrivate) (cmd : SMTPCommand) (rest : List SMTPCommand)
    (hq : d.commandqueue = cmd :: rest) (ht : cmd.type ≠ .Disconnect) :
    onDisconnected d =
      { d with
        state := .Disconnected
        inProgress := false
        commandqueue := []
        trace := d.trace ++ [.stateChanged .Disconnected, .disconnected,
                             .commandFinished cmd.id true, .done false] } ∧
    onError e message d =
      { d with
        state := .Disconnected
        inProgress := false
        commandqueue := []
        trace := d.trace ++ [.socketError e message, .stateChanged .Disconnected,
                             .disconnected, .commandFinished cmd.id true, .done false] } := by
  constructor <;> simp [onError, onDisconnected, setState, emit, hq, ht]

/-- C19, at the session `mailSession` with a second operation queued behind the Mail
operation. -/
theorem unexpected_disconnect_aborts_queue_witness :
    ((rawCommand "NOOP" mailSession).2.commandqueue =
        [{ id := 1, type := .Mail, extra := 0,
           data := .list [.byteArray (toUtf8 "a@x"),
                          .list [.byteArray (toUtf8 "b@y"), .byteArray (toUtf8 "c@z")],
                          .byteArray (toUtf8 "hello")] },
         { id := 2, type := .RawCommand, extra := 0, data := .string "NOOP" }] ∧
      CommandType.Mail ≠ CommandType.Disconnect) ∧
    (onDisconnected (rawCommand "NOOP" mailSession).2 =
      { (rawCommand "NOOP" mailSession).2 with
        state := .Disconnected
        inProgress := false
        commandqueue := []
        trace := (rawCommand "NOOP" mailSession).2.trace ++
          [.stateChanged .Disconnected, .disconnected, .commandFinished 1 true,
           .done false] } ∧
    onError 1 "Remote host closed" (rawCommand "NOOP" mailSession).2 =
      { (rawCommand "NOOP" mailSession).2 with
        state := .Disconnected
        inProgress := false
        commandqueue := []
        trace := (rawCommand "NOOP" mailSession).2.trace ++
          [.socketError 1 "Remote host closed", .stateChanged .Disconnected, .disconnected,
           .commandFinished 1 true, .done false] }) :=
  ⟨⟨rfl, by decide⟩,
    unexpected_disconnect_aborts_queue 1 "Remote host closed" (rawCommand "NOOP" mailSession).2
      { id := 1, type := .Mail, extra := 0,
        data := .list [.byteArray (toUtf8 "a@x"),
                       .list [.byteArray (toUtf8 "b@y"), .byteArray (toUtf8 "c@z")],
                       .byteArray (toUtf8 "hello")] }
      [{ id := 2, type := .RawCommand, extra := 0, data := .string "NOOP" }] rfl (by decide)⟩

/-! ## Capability parsing -/

/-- Absorption: the bits of `v` absorb those of `a &&& v`. -/
theorem and_or_absorb (a v : Nat) : (a &&& v) ||| v = v := by
  apply Nat.eq_of_testBit_eq; intro i; simp

/-- For a non-zero flag, `testFlag` is the test `a &&& v = v`. -/
theorem testFlag_pos (a v : Nat) (hv : v ≠ 0) : testFlag a v = true ↔ a &&& v = v := by
  simp [testFlag, hv]

/-- A flag that has just been ORed in is reported. -/
theorem testFlag_or_self (a v : Nat) (hv : v ≠ 0) : testFlag (a ||| v) v = true := by
  rw [testFlag_pos _ _ hv, Nat.and_distrib_right, Nat.and_self, and_or_absorb]

/-- ORing more bits in never clears a reported flag. -/
theorem testFlag_or_mono (a w v : Nat) (hv : v ≠ 0) (h : testFlag a v = true) :
    testFlag (a ||| w) v = true := by
  rw [testFlag_pos _ _ hv] at h ⊢
  rw [Nat.and_distrib_right, h, Nat.or_comm, and_or_absorb]

/-- Splitting always yields at least one part. -/
theorem splitChars_ne_nil (sep : Char) (cs : List Char) : splitChars sep cs ≠ [] := by
  cases cs with
  | nil => simp [splitChars]
  | cons c cs =>
      unfold splitChars
      split_ifs
      · simp
      · split <;> simp

/-- A text without the separator is its own single part. -/
theorem splitChars_no_sep (sep : Char) (w : List Char) (h : sep ∉ w) :
    splitChars sep w = [w] := by
  induction w with
  | nil => rfl
  | cons c cs ih =>
      have hc : c ≠ sep := fun e => h (by simp [e])
      have hcs : sep ∉ cs := fun e => h (by simp [e])
      simp [splitChars, hc, ih hcs]

/-- A separator-free prefix followed by the separator is the first part. -/
theorem splitChars_prefix (sep : Char) (w t : List Char) (h : sep ∉ w) :
    splitChars sep (w ++ sep :: t) = w :: splitChars sep t := by
  induction w with
  | nil => simp [splitChars]
  | cons c cs ih =>
      have hc : c ≠ sep := fun e => h (by simp [e])
      have hcs : sep ∉ cs := fun e => h (by simp [e])
      simp [splitChars, hc, ih hcs]

/-- The capability value after one line: the value of the keyword is ORed in. -/
theorem parseOptionLine_options (d : QwwSmtpClientPrivate) (text first : QString)
    (parts : List QString) (h : split (toLower text) ' ' = first :: parts) :
    (parseOptionLine d text).options = d.options ||| (text2option first).value := by
  unfold parseOptionLine
  rw [h]
  simp only []
  split_ifs
  · obtain ⟨a, ha⟩ :=
      authFold_frame { d with options := d.options ||| (text2option first).value } parts
    rw [ha]
  · rfl

/-- `QString::split` always yields at least one part. -/
theorem split_ne_nil (s : QString) (sep : Char) : split s sep ≠ [] := by
  simp [split, splitChars_ne_nil]

/-- Parsing a line never clears a flag. -/
theorem parseOptionLine_options_mono (d : QwwSmtpClientPrivate) (text : QString) (v : Nat)
    (hv : v ≠ 0) (h : testFlag d.options v = true) :
    testFlag (parseOptionLine d text).options v = true := by
  cases hs : split (toLower text) ' ' with
  | nil => exact absurd hs (split_ne_nil _ _)
  | cons first parts =>
      rw [parseOptionLine_options d text first parts hs]
      exact testFlag_or_mono _ _ _ hv h

/-- Parsing a reply group never clears a flag. -/
theorem parseOption_options_mono (texts : List QString) (d : QwwSmtpClientPrivate) (v : Nat)
    (hv : v ≠ 0) (h : testFlag d.options v = true) :
    testFlag (parseOption texts d).options v = true := by
  unfold parseOption
  induction texts generalizing d with
  | nil => exact h
  | cons t ts ih => exact ih _ (parseOptionLine_options_mono d t v hv h)

/-- A line whose first part has a non-zero capability value makes that value reported. -/
theorem parseOption_keyword_flag (texts : List QString) (d : QwwSmtpClientPrivate)
    (text first : QString) (parts : List QString) (hmem : text ∈ texts)
    (hs : split (toLower text) ' ' = first :: parts) (hv : (text2option first).value ≠ 0) :
    testFlag (parseOption texts d).options (text2option first).value = true := by
  induction texts generalizing d with
  | nil => simp at hmem
  | cons t ts ih =>
      rcases List.mem_cons.mp hmem with rfl | hmem
      · have : parseOption (text :: ts) d = parseOption ts (parseOptionLine d text) := rfl
        rw [this]
        apply parseOption_options_mono _ _ _ hv
        rw [parseOptionLine_options d text first parts hs]
        exact testFlag_or_self _ _ hv
      · exact ih (parseOptionLine d t) hmem

/-- A line that starts with a word spelling `kw` in some letter case, followed by nothing
or by a space, has `kw` as the first part of its lower-cased split. -/
theorem firstToken_of_keyword (text : QString) (word tail : List Char) (kw : QString)
    (hkw : ' ' ∉ kw.data) (htext : text.data = word ++ tail)
    (hword : word.map Char.toLower = kw.data) (htail : tail = [] ∨ tail.head? = some ' ') :
    ∃ parts, split (toLower text) ' ' = kw :: parts := by
  rcases htail with rfl | htail
  · refine ⟨[], ?_⟩
    simp [split, toLower, htext, hword, splitChars_no_sep _ _ hkw]
  · obtain ⟨t, rfl⟩ : ∃ t, tail = ' ' :: t := by
      cases tail with
      | nil => simp at htail
      | cons c t => simp at htail; exact ⟨t, by rw [htail]⟩
    refine ⟨(splitChars ' ' (t.map Char.toLower)).map String.mk, ?_⟩
    have hsp : Char.toLower ' ' = ' ' := by decide
    simp [split, toLower, htext, hword, hsp, splitChars_prefix _ _ _ hkw]

/-- Only the key `auth` maps to `AuthOption`. -/
theorem text2option_eq_auth (first : QString) :
    text2option first = .AuthOption ↔ first = "auth" := by
  unfold text2option
  constructor
  · intro h
    split_ifs at h with h1 h2 h3 h4
    exact h4
  · rintro rfl
    decide

/-- The bit of a mode `v` (2 for `kw = plain`, 4 for `kw = login`) after one mechanism. -/
theorem testFlag_or_authmode (a : Nat) (s kw : QString) (v : Nat)
    (hk : (kw, v) = ("plain", 2) ∨ (kw, v) = ("login", 4)) :
    testFlag (a ||| (text2authmode s).value) v = true ↔ testFlag a v = true ∨ s = kw := by
  have h24 : (4 : Nat) &&& 2 = 0 := by decide
  have h42 : (2 : Nat) &&& 4 = 0 := by decide
  have hne : ("login" : String) ≠ "plain" := by decide
  rcases hk with hk | hk <;> simp only [Prod.mk.injEq] at hk <;> obtain ⟨rfl, rfl⟩ := hk
  · unfold text2authmode
    split_ifs with h1 h2
    · simp [h1, testFlag_or_self, AuthMode.value]
    · subst h2
      simp [testFlag, AuthMode.value, Nat.and_distrib_right, h24, hne]
    · simp [AuthMode.value, h1]
  · unfold text2authmode
    split_ifs with h1 h2
    · subst h1
      simp [testFlag, AuthMode.value, Nat.and_distrib_right, h42, hne.symm]
    · simp [h2, testFlag_or_self, AuthMode.value]
    · simp [AuthMode.value, h2]

/-- The mode bit after the mechanisms of one AUTH line. -/
theorem authFold_flag (parts : List QString) (d : QwwSmtpClientPrivate) (kw : QString) (v : Nat)
    (hk : (kw, v) = ("plain", 2) ∨ (kw, v) = ("login", 4)) :
    testFlag (parts.foldl
      (fun d s => { d with authModes := d.authModes ||| (text2authmode s).value })
        d).authModes v = true ↔ testFlag d.authModes v = true ∨ kw ∈ parts := by
  induction parts generalizing d with
  | nil => simp
  | cons p ps ih =>
      simp only [List.foldl_cons, ih, testFlag_or_authmode _ _ kw v hk, List.mem_cons]
      constructor
      · rintro ((h | rfl) | h)
        · exact Or.inl h
        · exact Or.inr (Or.inl rfl)
        · exact Or.inr (Or.inr h)
      · rintro (h | rfl | h)
        · exact Or.inl (Or.inl h)
        · exact Or.inl (Or.inr rfl)
        · exact Or.inr h

/-- The mode bit after one reply line. -/
theorem parseOptionLine_flag (d : QwwSmtpClientPrivate) (text : QString) (kw : QString)
    (v : Nat) (hk : (kw, v) = ("plain", 2) ∨ (kw, v) = ("login", 4)) :
    testFlag (parseOptionLine d text).authModes v = true ↔
      testFlag d.authModes v = true ∨
        ∃ mechs, split (toLower text) ' ' = "auth" :: mechs ∧ kw ∈ mechs := by
  unfold parseOptionLine
  cases hs : split (toLower text) ' ' with
  | nil => exact absurd hs (split_ne_nil _ _)
  | cons first parts =>
      simp only []
      split_ifs with h
      · rw [text2option_eq_auth] at h
        subst h
        rw [authFold_flag _ _ kw v hk]
        simp
      · rw [text2option_eq_auth] at h
        simp
        intro h'
        exact absurd h' h

/-- The mode bit after a reply group. -/
theorem parseOption_flag (texts : List QString) (d : QwwSmtpClientPrivate) (kw : QString)
    (v : Nat) (hk : (kw, v) = ("plain", 2) ∨ (kw, v) = ("login", 4)) :
    testFlag (parseOption texts d).authModes v = true ↔
      testFlag d.authModes v = true ∨
        ∃ text ∈ texts, ∃ mechs, split (toLower text) ' ' = "auth" :: mechs ∧ kw ∈ mechs := by
  unfold parseOption
  induction texts generalizing d with
  | nil => simp
  | cons t ts ih =>
      simp only [List.foldl_cons, ih, parseOptionLine_flag d t kw v hk, List.mem_cons,
        exists_eq_or_imp, or_assoc]

/-- No reply line sets a bit outside PLAIN and LOGIN in the set of authentication modes. -/
theorem parseOption_authModes_within (texts : List QString) (d : QwwSmtpClientPrivate)
    (h : d.authModes &&& 6 = d.authModes) :
    (parseOption texts d).authModes &&& 6 = (parseOption texts d).authModes := by
  have hfold : ∀ (parts : List QString) (d : QwwSmtpClientPrivate),
      d.authModes &&& 6 = d.authModes →
      (parts.foldl (fun d s => { d with authModes := d.authModes ||| (text2authmode s).value })
        d).authModes &&& 6 =
      (parts.foldl (fun d s => { d with authModes := d.authModes ||| (text2authmode s).value })
        d).authModes := by
    intro parts
    induction parts with
    | nil => intro d h; exact h
    | cons p ps ih =>
        intro d h
        apply ih
        have hv : (text2authmode p).value &&& 6 = (text2authmode p).value := by
          unfold text2authmode
          split_ifs <;> decide
        simp only [Nat.and_distrib_right, h, hv]
  unfold parseOption
  induction texts generalizing d with
  | nil => exact h
  | cons t ts ih =>
      apply ih
      unfold parseOptionLine
      split
      · exact h
      · simp only []
        split_ifs
        · exact hfold _ _ h
        · exact h

/-- C11: starting from the empty capability set of `ehloSession`, the EHLO reply with the
lines `mx` and `PIPELINING` makes `options()` report STARTTLS, which no line advertises (and
ENHANCEDSTATUSCODES as well): `PipeliningOption` has the value 5, so ORing it in sets the
bits of `StartTlsOption` (1) and `EnhancedStatusCodesOption` (4). -/
theorem pipelining_reports_starttls :
    (processResponse (toUtf8 "250-mx\r\n250 PIPELINING\r\n") ehloSession
          (250, ["mx", "PIPELINING"])).map
        (fun d => (options d,
          testFlag (options d) SmtpOption.PipeliningOption.value,
          testFlag (options d) SmtpOption.StartTlsOption.value,
          testFlag (options d) SmtpOption.EnhancedStatusCodesOption.value)) =
      some (5, true, true, true) ∧
    options ehloSession = 0 := by
  decide

/-- C12, as stated, fails: starting from the empty capability set of `ehloSession`, a reply
with the line `SIZE 1000`, `ENHANCEDSTATUSCODES` or `BURL imap` leaves `options()` at 0, which
does not contain the corresponding capability. -/
theorem size_enhancedstatuscodes_burl_not_parsed :
    (processResponse (toUtf8 "250-mx\r\n250 SIZE 1000\r\n") ehloSession
          (250, ["mx", "SIZE 1000"])).map
        (fun d => (options d, testFlag (options d) SmtpOption.SizeOption.value)) =
      some (0, false) ∧
    (processResponse (toUtf8 "250-mx\r\n250 ENHANCEDSTATUSCODES\r\n") ehloSession
          (250, ["mx", "ENHANCEDSTATUSCODES"])).map
        (fun d => (options d,
          testFlag (options d) SmtpOption.EnhancedStatusCodesOption.value)) =
      some (0, false) ∧
    (processResponse (toUtf8 "250-mx\r\n250 BURL imap\r\n") ehloSession
          (250, ["mx", "BURL imap"])).map
        (fun d => (options d, testFlag (options d) SmtpOption.BurlOption.value)) =
      some (0, false) := by
  decide

/-- C12, amended: for each of the four keywords STARTTLS, AUTH, PIPELINING and 8BITMIME, if
a reply line starts with that keyword in any letter case (`word` lower-cases to the
keyword) followed by nothing or by a space, then after parsing `options()` contains the
corresponding capability, whatever the capability set was before. -/
theorem recognized_keyword_is_reported (texts : List QString) (d : QwwSmtpClientPrivate)
    (text : QString) (word tail : List Char) (kw : QString) (o : SmtpOption)
    (hk : (kw, o) ∈ [("starttls", SmtpOption.StartTlsOption), ("auth", .AuthOption),
      ("pipelining", .PipeliningOption), ("8bitmime", .EightBitMimeOption)])
    (hmem : text ∈ texts) (htext : text.data = word ++ tail)
    (hword : word.map Char.toLower = kw.data) (htail : tail = [] ∨ tail.head? = some ' ') :
    testFlag (options (parseOption texts d)) o.value = true := by
  have hfacts : ' ' ∉ kw.data ∧ text2option kw = o ∧ o.value ≠ 0 := by
    simp only [List.mem_cons, Prod.mk.injEq, List.mem_singleton, List.not_mem_nil, or_false] at hk
    rcases hk with ⟨rfl, rfl⟩ | ⟨rfl, rfl⟩ | ⟨rfl, rfl⟩ | ⟨rfl, rfl⟩ <;> decide
  obtain ⟨hsp, ho, hv⟩ := hfacts
  obtain ⟨parts, hs⟩ := firstToken_of_keyword text word tail kw hsp htext hword htail
  have := parseOption_keyword_flag texts d text kw parts hmem hs (by rw [ho]; exact hv)
  rw [ho] at this
  exact this

/-- C12 amended, for the line `StartTLS` of a reply parsed from the fresh client. -/
theorem recognized_keyword_is_reported_witness :
    ((("starttls" : QString), SmtpOption.StartTlsOption) ∈
        [("starttls", SmtpOption.StartTlsOption), ("auth", .AuthOption),
         ("pipelining", .PipeliningOption), ("8bitmime", .EightBitMimeOption)] ∧
      ("StartTLS" : QString) ∈ ["mx", "StartTLS"] ∧
      ("StartTLS" : QString).data = "StartTLS".data ++ [] ∧
      ("StartTLS" : QString).data.map Char.toLower = ("starttls" : QString).data ∧
      (([] : List Char) = [] ∨ ([] : List Char).head? = some ' ')) ∧
    testFlag (options (parseOption ["mx", "StartTLS"] initial))
      SmtpOption.StartTlsOption.value = true :=
  ⟨⟨by decide, by decide, by decide, by decide, Or.inl rfl⟩,
    recognized_keyword_is_reported ["mx", "StartTLS"] initial "StartTLS" "StartTLS".data []
      "starttls" .StartTlsOption (by decide) (by decide) (by decide) (by decide) (Or.inl rfl)⟩

/-- C13, as stated, fails for whitespace other than the space: starting from the empty sets
of `ehloSession`, the reply line `AUTH<TAB>PLAIN` (the keyword AUTH, a tab, which is a
whitespace character, and the mechanism PLAIN) leaves `supportedAuthModes()` empty, because
the line is split at spaces only and `auth<TAB>plain` is no known keyword. -/
theorem tab_separated_auth_line_not_parsed :
    (processResponse (toUtf8 "250-mx\r\n250 AUTH\tPLAIN\r\n") ehloSession
          (250, ["mx", "AUTH\tPLAIN"])).map
        (fun d => (supportedAuthModes d,
          testFlag (supportedAuthModes d) AuthMode.AuthPlain.value)) =
      some (0, false) ∧
    ("AUTH\tPLAIN" : QString).data = "AUTH".data ++ '\t' :: "PLAIN".data ∧
    Char.isWhitespace '\t' = true ∧
    split (toLower "AUTH\tPLAIN") ' ' = ["auth\tplain"] := by
  decide

/-- C13, amended: starting from an empty set of authentication modes, after parsing a reply
group `supportedAuthModes()` contains PLAIN if and only if some line whose first
space-separated token, lower-cased, is `auth` has `plain` among its remaining
space-separated lower-cased tokens, and likewise LOGIN with `login`; no bit outside PLAIN
and LOGIN is ever set, so unknown mechanisms and the tokens of other lines contribute
nothing. -/
theorem auth_modes_from_auth_lines (texts : List QString) (d : QwwSmtpClientPrivate)
    (ha : d.authModes = 0) :
    (testFlag (supportedAuthModes (parseOption texts d)) AuthMode.AuthPlain.value = true ↔
      ∃ text ∈ texts, ∃ mechs,
        split (toLower text) ' ' = "auth" :: mechs ∧ "plain" ∈ mechs) ∧
    (testFlag (supportedAuthModes (parseOption texts d)) AuthMode.AuthLogin.value = true ↔
      ∃ text ∈ texts, ∃ mechs,
        split (toLower text) ' ' = "auth" :: mechs ∧ "login" ∈ mechs) ∧
    supportedAuthModes (parseOption texts d) &&&
        (AuthMode.AuthPlain.value ||| AuthMode.AuthLogin.value) =
      supportedAuthModes (parseOption texts d) := by
  have h0 : ∀ v : Nat, v ≠ 0 → ¬ testFlag d.authModes v = true := by
    intro v hv
    simp [testFlag, ha, hv, Ne.symm hv]
  refine ⟨?_, ?_, ?_⟩
  · have := parseOption_flag texts d "plain" 2 (Or.inl rfl)
    simpa [supportedAuthModes, AuthMode.value, h0 2 (by decide)] using this
  · have := parseOption_flag texts d "login" 4 (Or.inr rfl)
    simpa [supportedAuthModes, AuthMode.value, h0 4 (by decide)] using this
  · have h6 : AuthMode.AuthPlain.value ||| AuthMode.AuthLogin.value = 6 := by decide
    rw [h6]
    exact parseOption_authModes_within texts d (by rw [ha]; decide)

/-- C13 amended, for the reply lines `mx`, `Auth  Plain XOAUTH2`, `SIZE login` parsed from
the fresh client. -/
theorem auth_modes_from_auth_lines_witness :
    initial.authModes = 0 ∧
    ((testFlag (supportedAuthModes
          (parseOption ["mx", "Auth  Plain XOAUTH2", "SIZE login"] initial))
        AuthMode.AuthPlain.value = true ↔
      ∃ text ∈ ["mx", "Auth  Plain XOAUTH2", "SIZE login"], ∃ mechs,
        split (toLower text) ' ' = "auth" :: mechs ∧ "plain" ∈ mechs) ∧
    (testFlag (supportedAuthModes
          (parseOption ["mx", "Auth  Plain XOAUTH2", "SIZE login"] initial))
        AuthMode.AuthLogin.value = true ↔
      ∃ text ∈ ["mx", "Auth  Plain XOAUTH2", "SIZE login"], ∃ mechs,
        split (toLower text) ' ' = "auth" :: mechs ∧ "login" ∈ mechs) ∧
    supportedAuthModes (parseOption ["mx", "Auth  Plain XOAUTH2", "SIZE login"] initial) &&&
        (AuthMode.AuthPlain.value ||| AuthMode.AuthLogin.value) =
      supportedAuthModes (parseOption ["mx", "Auth  Plain XOAUTH2", "SIZE login"] initial)) :=
  ⟨rfl, auth_modes_from_auth_lines ["mx", "Auth  Plain XOAUTH2", "SIZE login"] initial rfl⟩

/-! ## The password and the sent log -/

section redaction

variable (d : QwwSmtpClientPrivate)

@[simp] theorem redact_socket : (redact d).socket = d.socket := rfl
@[simp] theorem redact_state : (redact d).state = d.state := rfl
@[simp] theorem redact_inProgress : (redact d).inProgress = d.inProgress := rfl
@[simp] theorem redact_localName : (redact d).localName = d.localName := rfl
@[simp] theorem redact_localNameEncrypted :
    (redact d).localNameEncrypted = d.localNameEncrypted := rfl
@[simp] theorem redact_authModes : (redact d).authModes = d.authModes := rfl
@[simp] theorem redact_commandqueue :
    (redact d).commandqueue = d.commandqueue.map redactCommand := rfl

/-- Blanking a password twice is blanking it once. -/
theorem redactCommand_idem (c : SMTPCommand) : redactCommand (redactCommand c) = redactCommand c := by
  unfold redactCommand
  split_ifs with h <;> simp_all [QVariant.toList]

@[simp] theorem redactCommand_type (c : SMTPCommand) : (redactCommand c).type = c.type := by
  unfold redactCommand; split_ifs <;> rfl
@[simp] theorem redactCommand_id (c : SMTPCommand) : (redactCommand c).id = c.id := by
  unfold redactCommand; split_ifs <;> rfl
@[simp] theorem redactCommand_extra (c : SMTPCommand) : (redactCommand c).extra = c.extra := by
  unfold redactCommand; split_ifs <;> rfl

/-- Operations other than Authenticate are not changed by the redaction. -/
theorem redactCommand_of_ne (c : SMTPCommand) (h : c.type ≠ .Authenticate) :
    redactCommand c = c := by
  simp [redactCommand, h]

@[simp] theorem redact_redact : redact (redact d) = redact d := by
  simp [redact, redactCommand_idem, List.filter_filter]

/-- A call of `socket->write` leaves the redacted view as it is. -/
theorem redact_emit_write (b : QByteArray) : redact (emit (.write b) d) = redact d := by
  simp [redact, emit, isWrite, List.filter_append]

/-- Any other effect is appended to the redacted view. -/
theorem redact_emit (e : Effect) (h : isWrite e = false) :
    redact (emit e d) = emit e (redact d) := by
  simp [redact, emit, h, List.filter_append]

/-- `setState` commutes with the redaction. -/
theorem redact_setState (s : State) : redact (setState s d) = setState s (redact d) := by
  unfold setState
  simp only [redact_state]
  split_ifs <;> simp [redact, emit, isWrite, List.filter_append]

/-- Setting the stage of the head commutes with the redaction. -/
theorem redact_setHeadExtra (n : Nat) :
    redact (setHeadExtra n d) = setHeadExtra n (redact d) := by
  unfold setHeadExtra
  cases hq : d.commandqueue with
  | nil => simp [redact, hq]
  | cons c rest =>
      simp [redact, hq, redactCommand]
      split_ifs <;> rfl

/-- Setting the data of a head that is not an Authenticate operation commutes with the
redaction. -/
theorem redact_setHeadData_of_ne (v : QVariant) (c : SMTPCommand) (rest : List SMTPCommand)
    (hq : d.commandqueue = c :: rest) (h : c.type ≠ .Authenticate) :
    redact (setHeadData v d) = setHeadData v (redact d) := by
  simp [setHeadData, redact, hq, redactCommand, h]

/-- `parseOption` commutes with the redaction. -/
theorem redact_parseOption (texts : List QString) :
    redact (parseOption texts d) = parseOption texts (redact d) := by
  have hfold : ∀ (parts : List QString) (d : QwwSmtpClientPrivate),
      redact (parts.foldl
        (fun d s => { d with authModes := d.authModes ||| (text2authmode s).value }) d) =
      parts.foldl
        (fun d s => { d with authModes := d.authModes ||| (text2authmode s).value })
        (redact d) := by
    intro parts
    induction parts with
    | nil => intro d; rfl
    | cons p ps ih => intro d; simp only [List.foldl_cons, ih]; rfl
  unfold parseOption
  induction texts generalizing d with
  | nil => rfl
  | cons t ts ih =>
      simp only [List.foldl_cons, ih]
      congr 1
      unfold parseOptionLine
      split
      · rfl
      · simp only []
        split_ifs
        · rw [hfold]; rfl
        · rfl

/-- Assigning the error string commutes with the redaction. -/
theorem redact_errorString (x : QString) :
    redact { d with errorString := x } = { redact d with errorString := x } := rfl
/-- Assigning the capability set commutes with the redaction. -/
theorem redact_options (x : Nat) :
    redact { d with options := x } = { redact d with options := x } := rfl
/-- Assigning `inProgress` commutes with the redaction. -/
theorem redact_setInProgress (x : Bool) :
    redact { d with inProgress := x } = { redact d with inProgress := x } := rfl

/-- `sendEhlo` commutes with redaction up to the write. -/
theorem redact_sendEhlo : redact (sendEhlo d) = redact (sendEhlo (redact d)) := by
  simp [sendEhlo, redact_setHeadExtra, redact_emit_write, redact_emit, isWrite]

/-- `sendHelo` commutes with redaction up to the write. -/
theorem redact_sendHelo : redact (sendHelo d) = redact (sendHelo (redact d)) := by
  simp [sendHelo, redact_setHeadExtra, redact_emit_write, redact_emit, isWrite]

/-- `sendQuit` commutes with redaction up to the write. -/
theorem redact_sendQuit : redact (sendQuit d) = redact (sendQuit (redact d)) := by
  simp [sendQuit, redact_setState, redact_emit_write, redact_emit, isWrite]

/-- The redacted view after `sendAuthPlain` does not depend on the password. -/
theorem redact_sendAuthPlain (u p p' : QString) (d' : QwwSmtpClientPrivate)
    (h : redact d = redact d') :
    redact (sendAuthPlain u p d) = redact (sendAuthPlain u p' d') := by
  simp [sendAuthPlain, redact_emit_write, redact_emit, isWrite, h]

/-- The redacted view after `sendAuthLogin` does not depend on the password. -/
theorem redact_sendAuthLogin (u p p' : QString) (stage : Nat) (d' : QwwSmtpClientPrivate)
    (h : redact d = redact d') :
    redact (sendAuthLogin u p stage d) = redact (sendAuthLogin u p' stage d') := by
  unfold sendAuthLogin
  split_ifs <;> simp [redact_emit_write, redact_emit, isWrite, h]

/-- The redaction changes only the parameter of index 2. -/
theorem atIndex_redactCommand (c : SMTPCommand) (i : Nat) (hi : i ≠ 2) :
    atIndex (redactCommand c).data.toList i = atIndex c.data.toList i := by
  unfold redactCommand
  split_ifs
  · simp [atIndex, QVariant.toList, List.getD_eq_getElem?_getD, List.getElem?_set_ne (Ne.symm hi)]
  · rfl

/-- Blanking twice, as a composition. -/
theorem redactCommand_comp : redactCommand ∘ redactCommand = redactCommand :=
  funext redactCommand_idem

/-- Blanking a queue twice is blanking it once. -/
theorem map_redactCommand_idem (q : List SMTPCommand) :
    (q.map redactCommand).map redactCommand = q.map redactCommand := by
  induction q with
  | nil => rfl
  | cons c cs ih => simp only [List.map_cons, redactCommand_idem, ih]

/-- Dispatching the head gives the same redacted view on a state and on its redacted
view. -/
theorem redact_dispatch (cmd : SMTPCommand) (rest : List SMTPCommand)
    (hq : d.commandqueue = cmd :: rest) :
    redact (dispatch cmd d) = redact (dispatch (redactCommand cmd) (redact d)) := by
  cases ht : cmd.type
  case Authenticate =>
    unfold dispatch
    simp only [redactCommand_type, ht, atIndex_redactCommand _ 0 (by decide), redact_authModes]
    have hset : ∀ (v : QVariant),
        redact (setHeadData (.list (cmd.data.toList.set 0 v)) d) =
        redact (setHeadData (.list ((redactCommand cmd).data.toList.set 0 v)) (redact d)) := by
      intro v
      simp only [setHeadData, redact, hq, List.map_cons, map_redactCommand_idem]
      simp [redactCommand, ht, QVariant.toList, List.set_comm]
    generalize (if (atIndex cmd.data.toList 0).toInt = AuthMode.AuthAny.value then
        if testFlag d.authModes AuthMode.AuthPlain.value = true then
          (AuthMode.AuthPlain.value, true)
        else if testFlag d.authModes AuthMode.AuthLogin.value = true then
          (AuthMode.AuthLogin.value, true)
        else ((atIndex cmd.data.toList 0).toInt, false)
      else ((atIndex cmd.data.toList 0).toInt, false)) = r
    obtain ⟨a, b⟩ := r
    cases b <;> simp only [Bool.false_eq_true, if_false, if_true] <;> split_ifs <;>
      simp only [redact_setState, redact_emit_write, redact_emit, isWrite, redact_errorString,
        redact_redact, hset]
  all_goals
    rw [redactCommand_of_ne cmd (by simp [ht])]
    unfold dispatch
    simp only [ht, sendQuit]
    (try split_ifs) <;>
      simp [redact_setState, redact_emit_write, redact_emit, isWrite]

/-- `finishCommand` commutes with the redaction. -/
theorem redact_finishCommand (ok : Bool) :
    redact (finishCommand ok d) = finishCommand ok (redact d) := by
  unfold finishCommand
  cases hp : d.inProgress <;> cases hq : d.commandqueue <;>
    simp [hp, hq, redact, emit, isWrite, List.filter_append]

/-- `startCommand` gives the same redacted view on a state and on its redacted view. -/
theorem redact_startCommand : redact (startCommand d) = redact (startCommand (redact d)) := by
  unfold startCommand
  cases hq : d.commandqueue with
  | nil =>
      simp [redact, emit, hq, isWrite, List.filter_append, List.filter_filter]
  | cons cmd rest =>
      simp only [redact_commandqueue, hq, List.map_cons, redactCommand_id]
      simp only [redact_emit, isWrite, redact_setInProgress]
      rw [redact_dispatch d cmd rest hq]

/-- States with the same redacted view have the same redacted view after `startCommand`. -/
theorem sim_startCommand (d' : QwwSmtpClientPrivate) (h : redact d = redact d') :
    redact (startCommand d) = redact (startCommand d') := by
  rw [redact_startCommand d, redact_startCommand d', h]

/-- States with the same redacted view have the same redacted view after
`processNextCommand`. -/
theorem sim_processNextCommand (ok : Bool) (d' : QwwSmtpClientPrivate)
    (h : redact d = redact d') :
    redact (processNextCommand ok d) = redact (processNextCommand ok d') := by
  unfold processNextCommand
  apply sim_startCommand
  rw [redact_finishCommand, redact_finishCommand, h]

/-- States with the same redacted view have the same redacted view after `sendEhlo`. -/
theorem sim_sendEhlo (d' : QwwSmtpClientPrivate) (h : redact d = redact d') :
    redact (sendEhlo d) = redact (sendEhlo d') := by
  rw [redact_sendEhlo d, redact_sendEhlo d', h]

/-- States with the same redacted view have the same redacted view after `sendHelo`. -/
theorem sim_sendHelo (d' : QwwSmtpClientPrivate) (h : redact d = redact d') :
    redact (sendHelo d) = redact (sendHelo d') := by
  rw [redact_sendHelo d, redact_sendHelo d', h]

/-- The Connect branch gives the same redacted view on a state and on its redacted view. -/
theorem sim_replyConnect (texts : List QString) (status : Nat) :
    redact (replyConnect texts status d) = redact (replyConnect texts status (redact d)) := by
  unfold replyConnect
  split_ifs
  · exact redact_sendEhlo d
  · apply sim_processNextCommand
    simp only [redact_setState, redact_errorString, redact_parseOption, redact_redact]
  · apply sim_processNextCommand
    simp only [redact_setState, redact_errorString, redact_redact]
  · simp only [redact_setHeadExtra]
    congr 1
    apply sim_sendHelo
    simp only [redact_errorString, redact_redact]
  · rw [redact_redact]

/-- The StartTLS branch gives the same redacted view on a state and on its redacted
view. -/
theorem sim_replyStartTLS (raw : QByteArray) (texts : List QString) (cmd : SMTPCommand)
    (status : Nat) :
    redact (replyStartTLS raw texts cmd status d) =
      redact (replyStartTLS raw texts (redactCommand cmd) status (redact d)) := by
  unfold replyStartTLS
  simp only [redactCommand_extra]
  split_ifs
  · simp only [redact_emit, isWrite, redact_redact]
  · apply sim_processNextCommand
    simp only [redact_emit, isWrite, redact_errorString, redact_parseOption, redact_setState,
      redact_redact]
  · simp only [redact_emit, isWrite, redact_errorString, redact_redact]

/-- The Authenticate branch gives the same redacted view on a state and on its redacted
view, whose head has no password. -/
theorem sim_replyAuthenticate (texts : List QString) (cmd : SMTPCommand) (status : Nat) :
    redact (replyAuthenticate texts cmd status d) =
      redact (replyAuthenticate texts (redactCommand cmd) status (redact d)) := by
  unfold replyAuthenticate
  simp only [redactCommand_extra, atIndex_redactCommand _ 0 (by decide),
    atIndex_redactCommand _ 1 (by decide), redact_inProgress]
  split_ifs
  · apply sim_processNextCommand
    try simp only [redact_setState, redact_emit_write, redact_emit, isWrite, redact_parseOption,
      redact_setHeadExtra]
    simp [redact, redactCommand_comp, List.filter_filter]
  · simp only [redact_setHeadExtra]
    congr 1
    apply redact_sendAuthPlain
    try simp only [redact_setState, redact_emit_write, redact_emit, isWrite, redact_parseOption,
      redact_setHeadExtra]
    simp [redact, redactCommand_comp, List.filter_filter]
  · simp only [redact_setHeadExtra]
    congr 1
    apply redact_sendAuthLogin
    try simp only [redact_setState, redact_emit_write, redact_emit, isWrite, redact_parseOption,
      redact_setHeadExtra]
    simp [redact, redactCommand_comp, List.filter_filter]
  · apply sim_processNextCommand
    try simp only [redact_setState, redact_emit_write, redact_emit, isWrite, redact_parseOption,
      redact_setHeadExtra]
    simp [redact, redactCommand_comp, List.filter_filter]
  · simp only [redact_setHeadExtra]
    congr 1
    apply sim_processNextCommand
    try simp only [redact_setState, redact_emit_write, redact_emit, isWrite, redact_parseOption,
      redact_setHeadExtra]
    simp [redact, redactCommand_comp, List.filter_filter]
  · apply sim_processNextCommand
    try simp only [redact_setState, redact_emit_write, redact_emit, isWrite, redact_parseOption,
      redact_setHeadExtra]
    simp [redact, redactCommand_comp, List.filter_filter]
  · apply redact_sendAuthLogin
    try simp only [redact_setState, redact_emit_write, redact_emit, isWrite, redact_parseOption,
      redact_setHeadExtra]
    simp [redact, redactCommand_comp, List.filter_filter]
  · apply sim_processNextCommand
    try simp only [redact_setState, redact_emit_write, redact_emit, isWrite, redact_parseOption,
      redact_setHeadExtra]
    simp [redact, redactCommand_comp, List.filter_filter]
  · apply sim_processNextCommand
    try simp only [redact_setState, redact_emit_write, redact_emit, isWrite, redact_parseOption,
      redact_setHeadExtra]
    simp [redact, redactCommand_comp, List.filter_filter]
  · try simp only [redact_setState, redact_emit_write, redact_emit, isWrite, redact_parseOption,
      redact_setHeadExtra]
    simp [redact, redactCommand_comp, List.filter_filter]

/-- `sendRcpt` gives the same redacted view on a state and on its redacted view. -/
theorem redact_sendRcpt (cmd : SMTPCommand) (rest : List SMTPCommand)
    (hq : d.commandqueue = cmd :: rest) (h : cmd.type ≠ .Authenticate) :
    redact (sendRcpt d) = redact (sendRcpt (redact d)) := by
  have hq' : (redact d).commandqueue = cmd :: rest.map redactCommand := by
    simp [hq, redactCommand_of_ne cmd h]
  unfold sendRcpt
  rw [hq, hq']
  simp only []
  have h1 : ∀ (v : QVariant) (b : QByteArray),
      redact (setHeadData v (emit (.write b) (emit (.logSent b) d))) =
      redact (setHeadData v (emit (.write b) (emit (.logSent b) (redact d)))) := by
    intro v b
    rw [redact_setHeadData_of_ne _ v cmd rest (by simp [hq]) h,
      redact_setHeadData_of_ne _ v cmd (rest.map redactCommand)
        (by simp [hq, redactCommand_of_ne cmd h]) h]
    simp only [redact_emit_write, redact_emit, isWrite, redact_redact]
  split_ifs
  · simp only [redact_setHeadExtra, h1]
  · exact h1 _ _

/-- The Mail branch gives the same redacted view on a state and on its redacted view. -/
theorem sim_replyMail (texts : List QString) (cmd : SMTPCommand) (rest : List SMTPCommand)
    (status : Nat) (hq : d.commandqueue = cmd :: rest) (h : cmd.type ≠ .Authenticate) :
    redact (replyMail texts cmd status d) = redact (replyMail texts cmd status (redact d)) := by
  unfold replyMail
  split_ifs
  · rw [redact_sendRcpt { d with errorString := "" } cmd rest hq h]
    congr 2
  · apply sim_processNextCommand
    try simp only [redact_setState, redact_emit_write, redact_emit, isWrite, redact_parseOption,
      redact_setHeadExtra]
    simp [redact, redactCommand_comp, List.filter_filter]
  · try simp only [redact_setState, redact_emit_write, redact_emit, isWrite, redact_parseOption,
      redact_setHeadExtra]
    simp [redact, redactCommand_comp, List.filter_filter]
  · try simp only [redact_setState, redact_emit_write, redact_emit, isWrite, redact_parseOption,
      redact_setHeadExtra]
    simp [redact, redactCommand_comp, List.filter_filter]
  · apply sim_processNextCommand
    try simp only [redact_setState, redact_emit_write, redact_emit, isWrite, redact_parseOption,
      redact_setHeadExtra]
    simp [redact, redactCommand_comp, List.filter_filter]
  · try simp only [redact_setState, redact_emit_write, redact_emit, isWrite, redact_parseOption,
      redact_setHeadExtra]
    simp [redact, redactCommand_comp, List.filter_filter]
  · apply sim_processNextCommand
    try simp only [redact_setState, redact_emit_write, redact_emit, isWrite, redact_parseOption,
      redact_setHeadExtra]
    simp [redact, redactCommand_comp, List.filter_filter]

/-- One reply group handled on a state and on its redacted view gives the same redacted
view. -/
theorem redact_processResponse (raw : QByteArray) (response : Nat × List QString) :
    (processResponse raw d response).map redact =
      (processResponse raw (redact d) response).map redact := by
  unfold processResponse
  cases hq : d.commandqueue with
  | nil => simp [hq]
  | cons cmd rest =>
      simp only [redact_commandqueue, hq, List.map_cons, redactCommand_type, redactCommand_extra]
      cases ht : cmd.type <;> simp only [Option.map_some', Option.some.injEq]
      · exact sim_replyConnect d _ _
      · rw [redact_redact]
      · exact sim_replyStartTLS d _ _ _ _
      · exact sim_replyAuthenticate d _ _ _
      · rw [redactCommand_of_ne cmd (by simp [ht])]
        exact sim_replyMail d _ cmd rest _ hq (by simp [ht])
      · rw [redactCommand_of_ne cmd (by simp [ht])]
        exact sim_replyMail d _ cmd rest _ hq (by simp [ht])
      · rw [redact_redact]

/-- States with the same redacted view have the same redacted view after one reply
group. -/
theorem sim_processResponse (raw : QByteArray) (response : Nat × List QString)
    (d' : QwwSmtpClientPrivate) (h : redact d = redact d') :
    (processResponse raw d response).map redact =
      (processResponse raw d' response).map redact := by
  rw [redact_processResponse d, redact_processResponse d', h]

/-- States with the same redacted view have the same redacted view after a sequence of
reply groups. -/
theorem sim_handleReplies (replies : List (QByteArray × Nat × List QString))
    (d' : QwwSmtpClientPrivate) (h : redact d = redact d') :
    (handleReplies replies d).map redact = (handleReplies replies d').map redact := by
  induction replies generalizing d d' with
  | nil => simp [handleReplies, h]
  | cons r rs ih =>
      obtain ⟨raw, response⟩ := r
      have hr := sim_processResponse d raw response d' h
      unfold handleReplies
      cases h1 : processResponse raw d response <;>
        cases h2 : processResponse raw d' response <;> simp [h1, h2] at hr ⊢
      exact ih _ _ hr

/-- Dropping the writes from a trace keeps its sent log. -/
theorem sentLog_filter (t : List Effect) :
    sentLog (t.filter (fun e => !isWrite e)) = sentLog t := by
  induction t with
  | nil => rfl
  | cons e es ih =>
      cases hw : isWrite e
      · rw [List.filter_cons_of_pos (by simp [hw])]
        cases e <;> simp [sentLog, ih]
      · rw [List.filter_cons_of_neg (by simp [hw]), ih]
        cases e <;> first
          | (simp [sentLog]; done)
          | simp [isWrite] at hw

/-- The redacted view has the sent log of the state. -/
theorem sentLog_redact : sentLog (redact d).trace = sentLog d.trace :=
  sentLog_filter d.trace

/-- Two calls of `authenticate` that differ in the password only give the same redacted
view. -/
theorem sim_authenticate (user p₁ p₂ : QString) (mode : AuthMode) :
    redact (authenticate user p₁ mode d).2 = redact (authenticate user p₂ mode d).2 := by
  unfold authenticate enqueue
  simp only []
  have hbase : ∀ p₁ p₂ : QString,
      redact { d with lastId := d.lastId + 1,
                      commandqueue := d.commandqueue ++
                        [{ id := d.lastId + 1, type := .Authenticate,
                           data := .list [.int mode.value, .string user, .string p₁],
                           extra := 0 }] } =
      redact { d with lastId := d.lastId + 1,
                      commandqueue := d.commandqueue ++
                        [{ id := d.lastId + 1, type := .Authenticate,
                           data := .list [.int mode.value, .string user, .string p₂],
                           extra := 0 }] } := by
    intro p₁ p₂
    simp [redact, redactCommand, QVariant.toList]
  split_ifs
  · exact sim_processNextCommand _ _ _ (hbase p₁ p₂)
  · exact hbase p₁ p₂

end redaction

/-- C20: two calls of `authenticate` that differ only in the password, made on the same
state and followed by the same sequence of reply groups, produce the same sequence of
`logSent` payloads (or both runs reach the empty queue at the same reply); and for a LOGIN
operation at stage 1 a 334 reply logs exactly the placeholder `*** [AUTH LOGIN password]`
while the bytes written are the base64 of the password and CRLF. -/
theorem password_never_in_sent_log (replies : List (QByteArray × Nat × List QString))
    (user p₁ p₂ : QString) (mode : AuthMode) (d₀ : QwwSmtpClientPrivate)
    (raw : QByteArray) (texts : List QString) (d : QwwSmtpClientPrivate) (cmd : SMTPCommand)
    (rest : List SMTPCommand) (password : QString)
    (hq : d.commandqueue = cmd :: rest) (ht : cmd.type = .Authenticate) (he : cmd.extra = 1)
    (hd : cmd.data = .list [.int AuthMode.AuthLogin.value, .string user, .string password]) :
    (handleReplies replies (authenticate user p₁ mode d₀).2).map (fun s => sentLog s.trace) =
      (handleReplies replies (authenticate user p₂ mode d₀).2).map
        (fun s => sentLog s.trace) ∧
    processResponse raw d (334, texts) =
      some { d with
        errorString := ""
        trace := d.trace ++ [.logSent (toUtf8 "*** [AUTH LOGIN password]"),
                             .write (toBase64 (toUtf8 password)), .write (toUtf8 "\r\n")] } := by
  constructor
  · have h := sim_handleReplies (authenticate user p₁ mode d₀).2 replies
      (authenticate user p₂ mode d₀).2 (sim_authenticate d₀ user p₁ p₂ mode)
    have h' := congrArg (Option.map (fun s : QwwSmtpClientPrivate => sentLog s.trace)) h
    simpa [Option.map_map, Function.comp_def, sentLog_redact] using h'
  · simp [processResponse, hq, ht, he, hd, replyAuthenticate, sendAuthLogin, emit, atIndex,
      QVariant.toList, QVariant.toInt, QVariant.toString, AuthMode.value]

/-- C20, for the passwords `p` and `q` of the user `u` in mode LOGIN on a fresh client, with
the replies 220 and 334, and for the LOGIN step at the session `loginUserSession`. -/
theorem password_never_in_sent_log_witness :
    (loginUserSession.commandqueue =
        [{ id := 1, type := .Authenticate, extra := 1,
           data := .list [.int AuthMode.AuthLogin.value, .string "u", .string "p"] }]) ∧
    ((handleReplies [(toUtf8 "220 go\r\n", 220, ["go"]),
            (toUtf8 "334 UGFzc3dvcmQ6\r\n", 334, ["UGFzc3dvcmQ6"])]
          (authenticate "u" "p" .AuthLogin initial).2).map (fun s => sentLog s.trace) =
      (handleReplies [(toUtf8 "220 go\r\n", 220, ["go"]),
            (toUtf8 "334 UGFzc3dvcmQ6\r\n", 334, ["UGFzc3dvcmQ6"])]
          (authenticate "u" "q" .AuthLogin initial).2).map (fun s => sentLog s.trace) ∧
    processResponse (toUtf8 "334 UGFzc3dvcmQ6\r\n") loginUserSession (334, ["UGFzc3dvcmQ6"]) =
      some { loginUserSession with
        errorString := ""
        trace := loginUserSession.trace ++
          [.logSent (toUtf8 "*** [AUTH LOGIN password]"),
           .write (toBase64 (toUtf8 "p")), .write (toUtf8 "\r\n")] }) :=
  ⟨rfl,
    password_never_in_sent_log
      [(toUtf8 "220 go\r\n", 220, ["go"]),
       (toUtf8 "334 UGFzc3dvcmQ6\r\n", 334, ["UGFzc3dvcmQ6"])] "u" "p" "q" .AuthLogin
      initial (toUtf8 "334 UGFzc3dvcmQ6\r\n") ["UGFzc3dvcmQ6"] loginUserSession
      { id := 1, type := .Authenticate, extra := 1,
        data := .list [.int AuthMode.AuthLogin.value, .string "u", .string "p"] } [] "p"
      rfl rfl rfl rfl⟩


/-! ## Runs -/

/-- C21: in the run `disconnectFromHost()`, socket `disconnected()`, `connectToHost("mx", 25)`
from the fresh client, `commandStarted(1)` is emitted twice (and no `commandFinished` at
all): the Disconnect operation 1 is not dequeued by `onDisconnected` and is dispatched again
by the next public call. -/
theorem commandStarted_emitted_twice :
    (run [.disconnectFromHost, .socketDisconnected, .connectToHost "mx" 25] initial).map
        (fun d => (startedIds d.trace, (startedIds d.trace).count 1, finishedIds d.trace)) =
      some ([1, 1], 2, []) := by
  decide

/-- C22, as stated, fails: in the run `connectToHost("mx", 25)`, socket error, socket
`disconnected()` from the fresh client, `stateChanged(Disconnected)` is emitted twice in a
row. -/
theorem stateChanged_repeats_value :
    (run [.connectToHost "mx" 25, .socketError 1 "closed", .socketDisconnected] initial).map
        (fun d => stateChanges d.trace) =
      some [.Connecting, .Disconnected, .Disconnected] ∧
    ¬ List.Chain' (fun a b => a ≠ b)
        [State.Connecting, State.Disconnected, State.Disconnected] :=
  ⟨by decide, by simp⟩

/-- The state changes of a trace that is extended. -/
theorem stateChanges_append (t u : List Effect) :
    stateChanges (t ++ u) = stateChanges t ++ stateChanges u := by
  induction t with
  | nil => rfl
  | cons e es ih => cases e <;> simp [stateChanges, ih]

/-- C22, amended: every call of `setState(s)` emits exactly one `stateChanged(s)` and makes
`s` the current state, whether or not `s` differs from the state before: nothing compares
the new value with the previous one, so that setting the current state again repeats the
value in the event log. -/
theorem stateChanged_on_every_setState (s : State) (d : QwwSmtpClientPrivate) :
    stateChanges (setState s d).trace = stateChanges d.trace ++ [s] ∧
    (setState s d).state = s ∧
    stateChanges (setState s (setState s d)).trace = stateChanges d.trace ++ [s, s] := by
  have h : ∀ d : QwwSmtpClientPrivate,
      stateChanges (setState s d).trace = stateChanges d.trace ++ [s] := by
    intro d
    rw [setState_trace, stateChanges_append]
    split_ifs <;> simp [stateChanges]
  refine ⟨h d, setState_state d s, ?_⟩
  rw [h, h, List.append_assoc]
  rfl

/-- The socket's `connected()` emits `stateChanged(Connected)` as well, and leaves the
current state as it is; in the run `connectToHost`, `connected()`, a banner with the code
144 (which starts EHLO) and the reply `250 mx`, `stateChanged(Connected)` is in the log twice
in a row. -/
theorem onConnected_stateChanged (d : QwwSmtpClientPrivate) :
    stateChanges (onConnected d).trace = stateChanges d.trace ++ [.Connected] ∧
    (onConnected d).state = d.state ∧
    (run [.connectToHost "mx" 25, .socketConnected, .readyRead "144 mx ready\r\n",
          .readyRead "250 mx\r\n"] initial).map (fun d => stateChanges d.trace) =
      some [.Connecting, .Connected, .Connected] := by
  refine ⟨?_, rfl, by decide⟩
  simp [onConnected, stateChanges_append, stateChanges]

/-! ## `Common::Section` -/

/-- C23: `Section(2, 5)` stores begin 2 and end 5 unchanged but has the span -3, which is
`begin - end`, not `end - begin` = 3. -/
theorem section_span_is_begin_minus_end :
    Section.new 2 5 = { begin := 2, end_ := 5, span := -3 } ∧
    (Section.new 2 5).span ≠ 5 - 2 := by
  decide

/-- For positions from 0 to `2 ^ 63 - 1` the span is `begin - end`, the negative of the
difference between the end and begin positions. -/
theorem section_span_general (b e : Int) (hb : 0 ≤ b ∧ b < 2 ^ 63) (he : 0 ≤ e ∧ e < 2 ^ 63) :
    (Section.new b e).span = b - e ∧ (Section.new b e).begin = b ∧
      (Section.new b e).end_ = e := by
  refine ⟨?_, rfl, rfl⟩
  simp only [Section.new, qint64]
  omega

/-! ## The framer -/

/-- The loop on a run of matches of which only the last may be a final line: every text is
appended to the single entry. -/
theorem frameLoop_single_group (ms : List LineMatch) (m : LineMatch) (c : Nat)
    (acc : List QString) (hs : ∀ x ∈ ms, x.sep ≠ ' ') :
    frameLoop (ms ++ [m]) [(c, acc)] 0 false =
      some [(c, acc ++ (ms ++ [m]).map (fun x => trimmed x.text))] := by
  induction ms generalizing acc with
  | nil => simp [frameLoop, appendSecond]
  | cons x xs ih =>
      have hx : x.sep ≠ ' ' := hs x (by simp)
      have hxs : ∀ y ∈ xs, y.sep ≠ ' ' := fun y hy => hs y (by simp [hy])
      simp [frameLoop, appendSecond, hx, ih _ hxs]

/-- The loop indexes `responses[1]`, out of range, as soon as a match follows a final
line. -/
theorem frameLoop_after_final_line (m : LineMatch) (rest : List LineMatch) (c : Nat)
    (acc : List QString) : frameLoop (m :: rest) [(c, acc)] 0 true = none := by
  simp [frameLoop, setFirst]

/-- Any read with a match after a final line (in particular every read with two or more
complete reply groups) indexes the list out of range. -/
theorem frameMatches_out_of_range (ms : List LineMatch) (m x : LineMatch)
    (rest : List LineMatch) (hs : ∀ y ∈ ms, y.sep ≠ ' ') (hm : m.sep = ' ') :
    frameMatches (ms ++ m :: x :: rest) = none := by
  have hloop : ∀ (ms : List LineMatch) (c : Nat) (acc : List QString),
      (∀ y ∈ ms, y.sep ≠ ' ') →
      frameLoop (ms ++ m :: x :: rest) [(c, acc)] 0 false = none := by
    intro ms
    induction ms with
    | nil =>
        intro c acc _
        simp [frameLoop, appendSecond, setFirst, hm]
    | cons y ys ih =>
        intro c acc h
        have hy : y.sep ≠ ' ' := h y (by simp)
        have hys : ∀ z ∈ ys, z.sep ≠ ' ' := fun z hz => h z (by simp [hz])
        simp [frameLoop, appendSecond, hy, ih _ _ hys]
  cases ms with
  | nil => exact hloop [] _ _ (by simp)
  | cons y ys => exact hloop (y :: ys) _ _ hs

/-- C24, as stated, fails: the reply group `250-a`, `250 b` gives one entry with both lines
when it arrives in one read, and two entries of one line each when it arrives in two reads
cut between the lines; cut inside the second line, the second read gives an entry with the
code 0. -/
theorem frame_depends_on_reads :
    frame "250-a\r\n250 b\r\n" = some [(250, ["a", "b"])] ∧
    (frame "250-a\r\n").bind (fun g => (frame "250 b\r\n").map (fun h => g ++ h)) =
      some [(250, ["a"]), (250, ["b"])] ∧
    (frame "250-a\r\n25").bind (fun g => (frame "0 b\r\n").map (fun h => g ++ h)) =
      some [(250, ["a"]), (0, ["b"])] := by
  decide

/-- C24, amended: each read is framed on its own, nothing being carried over to the next
read: a read whose matching lines are all continuation lines except possibly the last yields
exactly one entry, with the code of its first matching line and the trimmed texts of all its
matching lines, whether or not the last line closes the reply group. -/
theorem frame_one_entry_per_read (text : QString) (ms : List LineMatch) (m : LineMatch)
    (hl : lineMatches text = ms ++ [m]) (hs : ∀ x ∈ ms, x.sep ≠ ' ') :
    frame text =
      some [(((ms ++ [m]).headD m).code, (ms ++ [m]).map (fun x => trimmed x.text))] := by
  unfold frame
  rw [hl]
  cases ms with
  | nil => simp [frameMatches, frameLoop, appendSecond]
  | cons y ys =>
      have := frameLoop_single_group (y :: ys) m y.code [] hs
      simpa [frameMatches] using this

/-- C24 amended, for a read that holds the first two lines of a reply group only. -/
theorem frame_one_entry_per_read_witness :
    (lineMatches "250-mx\r\n250-PIPELINING\r\n" =
        [LineMatch.mk 250 '-' "mx"] ++ [LineMatch.mk 250 '-' "PIPELINING"] ∧
      ∀ x ∈ [LineMatch.mk 250 '-' "mx"], x.sep ≠ ' ') ∧
    frame "250-mx\r\n250-PIPELINING\r\n" =
      some [((([LineMatch.mk 250 '-' "mx"] ++ [LineMatch.mk 250 '-' "PIPELINING"]).headD
                (LineMatch.mk 250 '-' "PIPELINING")).code,
             ([LineMatch.mk 250 '-' "mx"] ++ [LineMatch.mk 250 '-' "PIPELINING"]).map
               (fun x => trimmed x.text))] :=
  ⟨⟨by decide, by decide⟩,
    frame_one_entry_per_read "250-mx\r\n250-PIPELINING\r\n"
      [LineMatch.mk 250 '-' "mx"] (LineMatch.mk 250 '-' "PIPELINING") (by decide)
      (by decide)⟩

/-- C25: the read `250 a`, `250 b` (two complete reply groups of one line each) makes the
loop index `responses[1]` of a list that holds one entry: the list of entries is never
built; a read with one complete group is framed as the claim says. -/
theorem frame_two_groups_out_of_range :
    frame "250 a\r\n250 b\r\n" = none ∧
    lineMatches "250 a\r\n250 b\r\n" =
      [{ code := 250, sep := ' ', text := "a" }, { code := 250, sep := ' ', text := "b" }] ∧
    setFirst [(250, ["a"])] 1 250 = none ∧
    frame "250-mx\r\n250 ok\r\n" = some [(250, ["mx", "ok"])] := by
  decide

/-! ## Authenticate: LOGIN, and the reply 220 -/

/-- C26: for the LOGIN operation of `loginUserSession` (stage 1) the reply 334 makes the
driver write the base64 of the password and CRLF, but the stage stays 1: `case 1334` calls
`sendAuthLogin` with `cmd.extra + 1` and never assigns `cmd.extra`. -/
theorem login_password_step_keeps_stage :
    loginUserSession.commandqueue.map (fun c => (c.id, c.extra)) = [(1, 1)] ∧
    (processResponse (toUtf8 "334 UGFzc3dvcmQ6\r\n") loginUserSession
          (334, ["UGFzc3dvcmQ6"])).map
        (fun d => (d.commandqueue.map (fun c => (c.id, c.extra)), writes d.trace)) =
      some ([(1, 1)],
        [toUtf8 "AUTH LOGIN\r\n", toUtf8 "dQ==\r\n", toUtf8 "cA==", toUtf8 "\r\n"]) := by
  decide

/-- C29: after `authenticate("u", "p", AuthPlain)` the reply `220 go` at stage 0 makes the
driver write the credentials (the base64 of NUL `u` NUL `p`, then CRLF) and move to stage 1:
the label `case 0334` is the octal number 220. -/
theorem auth_220_sends_credentials :
    (processResponse (toUtf8 "220 go\r\n") (authSession .AuthPlain) (220, ["go"])).map
        (fun d => (writes d.trace, d.commandqueue.map (fun c => (c.id, c.extra)))) =
      some ([toUtf8 "AUTH PLAIN\r\n", toUtf8 "AHUAcA==", toUtf8 "\r\n"], [(1, 1)]) ∧
    toBase64 ([0] ++ toUtf8 "u" ++ [0] ++ toUtf8 "p") = toUtf8 "AHUAcA==" := by
  decide

/-! ## HELO and EHLO domains -/

/-- C27: on an encrypted transport with an empty `localNameEncrypted`, the reply
`502 Unknown` to `EHLO localhost` makes the driver write `HELO ` with an empty domain; with
`localNameEncrypted` set to `secure.example`, EHLO uses `secure.example` and HELO uses
`localhost`.  `sendHelo` tests `localNameEncrypted.isEmpty()` where `sendEhlo` tests
`!localNameEncrypted.isEmpty()`. -/
theorem helo_domain_differs_from_ehlo :
    (processResponse (toUtf8 "502 Unknown\r\n") smtpsEhloSession (502, ["Unknown"])).map
        (fun d => (writes d.trace, d.localName, d.localNameEncrypted, d.socket.isEncrypted)) =
      some ([toUtf8 "EHLO localhost\r\n", toUtf8 "HELO \r\n"], "localhost", "", true) ∧
    (processResponse (toUtf8 "502 Unknown\r\n") smtpsNamedEhloSession
          (502, ["Unknown"])).map
        (fun d => (writes d.trace, d.localName, d.localNameEncrypted, d.socket.isEncrypted)) =
      some ([toUtf8 "EHLO secure.example\r\n", toUtf8 "HELO localhost\r\n"], "localhost",
        "secure.example", true) := by
  decide

/-! ## Mail: a 250 reply to DATA -/

/-- C28: for the Mail operation of `mailDataSession` (stage 2, `DATA` written, body not
written) the reply `250 ok` completes the operation as successfully queued: the error string
is cleared, the state becomes `Connected` and `commandFinished(1, false)` is emitted, while
the body `hello` has never been written.  `case 2250` (`BURL succeeded`) does not test the
operation kind. -/
theorem mail_stage2_250_completes_without_body :
    mailDataSession.commandqueue.map (fun c => (c.id, c.type, c.extra)) = [(1, .Mail, 2)] ∧
    (processResponse (toUtf8 "250 ok\r\n") mailDataSession (250, ["ok"])).map
        (fun d => (writes d.trace, d.errorString, d.state)) =
      some ([toUtf8 "MAIL FROM:<a@x>\r\n", toUtf8 "RCPT TO:<b@y>\r\n",
             toUtf8 "RCPT TO:<c@z>\r\n", toUtf8 "DATA\r\n"],
            "", .Connected) ∧
    (processResponse (toUtf8 "250 ok\r\n") mailDataSession (250, ["ok"])).map
        (fun d => (decide (Effect.commandFinished 1 false ∈ d.trace),
          d.commandqueue.map (fun c => c.id))) =
      some (true, []) := by
  decide

end QwwSmtp
